import Mathlib

/-!
Verification of the Highline monitoring backend (Go) against its
natural-language specification.

The Go sources are shallowly embedded:
* timestamps (`time.Time`) are modelled as natural numbers (seconds);
  `time.Duration` values rounded to seconds become `Nat`;
* Go `float64` uptime arithmetic (`float64(success)/float64(total)*100`)
  is modelled exactly over `Rat`;
* the `int64` check counters are modelled as `Nat` (they are only ever
  incremented, so 64-bit wrap-around is unreachable in any realistic
  trace and is not modelled);
* Go maps (`map[string]*T`) are modelled as association lists with
  first-occurrence lookup; the stores only ever create unique keys, so
  list order stands in for the (unordered) map iteration order;
* optional / zero-valued fields (`*time.Time`, `*int64`, empty duration
  string) are modelled as `Option`;
* fallible operations return `Option` / `Except`.
-/

/-- Lookup of the first entry with the given key in an association list
(the embedding of a Go map read `m[k]`). -/
def lookupEntry {α : Type} : List (String × α) → String → Option α
  | [], _ => none
  | e :: rest, k => if e.1 = k then some e.2 else lookupEntry rest k

/-- Overwrite the first entry with the given key, or append a new entry
(the embedding of a Go map write `m[k] = v`). -/
def upsertEntry {α : Type} : List (String × α) → String → α → List (String × α)
  | [], k, v => [(k, v)]
  | e :: rest, k, v => if e.1 = k then (k, v) :: rest else e :: upsertEntry rest k v

/-- Remove the first entry with the given key (the embedding of Go
`delete(m, k)`). -/
def eraseEntry {α : Type} : List (String × α) → String → List (String × α)
  | [], _ => []
  | e :: rest, k => if e.1 = k then rest else e :: eraseEntry rest k

/-- Apply a function to the value of the first entry with the given key,
if present (the embedding of mutating `m[k]` through a pointer). -/
def updateEntry {α : Type} : List (String × α) → String → (α → α) → List (String × α)
  | [], _, _ => []
  | e :: rest, k, f => if e.1 = k then (e.1, f e.2) :: rest else e :: updateEntry rest k f

/-- Status of a monitored service (`ServiceStatus` in handlers.go).  The Go
string type is only ever assigned its three declared constants. -/
inductive ServiceStatus
  | healthy
  | error
  | down
deriving DecidableEq, Repr

/-- A value in a log entry's details map (`map[string]interface{}` in Go;
the code only reads values back as `string` or `float64`). -/
inductive DetailVal
  | str (s : String)
  | num (q : Rat)
  | other
deriving DecidableEq, Repr

/-- Embeds `LogEntry` from handlers.go. -/
structure LogEntry where
  timestamp : Nat
  type : String
  message : String
  eventType : String
  details : List (String × DetailVal)
deriving DecidableEq, Repr

/-- Embeds `Service` from handlers.go. -/
structure Service where
  name : String
  githubRepo : String
  status : ServiceStatus
  lastHeartbeat : Nat
  lastError : String
  uptimePercent : Rat
  totalChecks : Nat
  successChecks : Nat
  remediationLog : List String
  logs : List LogEntry
deriving DecidableEq, Repr

/-- Embeds `ServiceStore` from handlers.go (the `HealthRegistry`). -/
structure ServiceStore where
  services : List (String × Service)
  timeout : Nat
deriving DecidableEq, Repr

/-- Embeds `NewServiceStore` from handlers.go. -/
def NewServiceStore (timeout : Nat) : ServiceStore :=
  { services := [], timeout }

/-- Embeds `LogData` from handlers.go. -/
structure LogData where
  eventType : String
  details : List (String × DetailVal)
deriving DecidableEq, Repr

/-- Embeds `HeartbeatRequest` from handlers.go.  `status` is the raw request
string, not a `ServiceStatus`. -/
structure HeartbeatRequest where
  serviceName : String
  githubRepo : String
  status : String
  errorLog : String
  logData : Option LogData
deriving DecidableEq, Repr

/-- A Go two-valued type assertion `d[k].(string)`. -/
def getStrDetail (d : List (String × DetailVal)) (k : String) : Option String :=
  match lookupEntry d k with
  | some (DetailVal.str s) => some s
  | _ => none

/-- A Go two-valued type assertion `d[k].(float64)`. -/
def getNumDetail (d : List (String × DetailVal)) (k : String) : Option Rat :=
  match lookupEntry d k with
  | some (DetailVal.num q) => some q
  | _ => none

/-- Go `int(x)` truncation of a float64, modelled on `Rat`. -/
def ratTrunc (q : Rat) : Int :=
  if 0 ≤ q then q.floor else q.ceil

/-- Stand-in for Go `%.2f` float formatting (exact rounding mode is
immaterial to every property proved here). -/
def fmtRat2 (q : Rat) : String :=
  let c : Int := (q * 100).floor
  toString (c / 100) ++ "." ++ (if (c % 100).natAbs < 10 then "0" else "") ++
    toString (c % 100).natAbs

/-- Embeds `buildLogMessage` from handlers.go.  The Go `data == nil` guard is
unreachable here because `LogData` is passed by value; both call sites
check for nil before calling. -/
def buildLogMessage (data : LogData) : String :=
  if data.eventType = "text_message" then
    match getStrDetail data.details "user" with
    | some user =>
      match getNumDetail data.details "message_length" with
      | some msgLen => "Text message from @" ++ user ++ " (" ++ toString (ratTrunc msgLen) ++ " chars)"
      | none => "Text message from @" ++ user
    | none => "Text message received"
  else if data.eventType = "file_upload" then
    let user := (getStrDetail data.details "user").getD ""
    let filename := (getStrDetail data.details "filename").getD ""
    let filesize := (getNumDetail data.details "filesize_mb").getD 0
    if user ≠ "" ∧ filename ≠ "" then
      "File upload from @" ++ user ++ ": " ++ filename ++ " (" ++ fmtRat2 filesize ++ " MB)"
    else
      "File upload received"
  else if data.eventType = "file_upload_failed" then
    let user := (getStrDetail data.details "user").getD ""
    let filename := (getStrDetail data.details "filename").getD ""
    let filesize := (getNumDetail data.details "filesize_mb").getD 0
    let reason := (getStrDetail data.details "reason").getD ""
    if user ≠ "" then
      "File upload FAILED from @" ++ user ++ ": " ++ filename ++ " (" ++ fmtRat2 filesize ++
        " MB) - " ++ reason
    else
      "File upload failed"
  else
    "Event: " ++ data.eventType

/-- The list-level body of `addLog` from handlers.go: append and keep only
the last 100 entries. -/
def pushLog (logs : List LogEntry) (entry : LogEntry) : List LogEntry :=
  if 100 < (logs ++ [entry]).length then
    (logs ++ [entry]).drop ((logs ++ [entry]).length - 100)
  else
    logs ++ [entry]

/-- Embeds `addLog` from handlers.go. -/
def Service.addLog (svc : Service) (entry : LogEntry) : Service :=
  { svc with logs := pushLog svc.logs entry }

/-- Embeds `RecordHeartbeat` from handlers.go.  Returns the updated store and the
stored service record (the Go function returns a pointer to it).  The Go
zero value of the fresh record's `Status` field (the empty string) is
always overwritten below before being stored or read; the placeholder
constructor used for it here is likewise always overwritten. -/
def ServiceStore.RecordHeartbeat (s : ServiceStore) (req : HeartbeatRequest) (now : Nat) :
    ServiceStore × Service :=
  let base : Service :=
    match lookupEntry s.services req.serviceName with
    | some svc => svc
    | none =>
      { name := req.serviceName, githubRepo := req.githubRepo, status := ServiceStatus.error,
        lastHeartbeat := 0, lastError := "", uptimePercent := 0,
        totalChecks := 0, successChecks := 0, remediationLog := [], logs := [] }
  let svc1 : Service :=
    { base with githubRepo := req.githubRepo, lastHeartbeat := now,
                totalChecks := base.totalChecks + 1 }
  let svc2 : Service :=
    if req.status = "healthy" then
      let logMessage :=
        match req.logData with
        | some d => buildLogMessage d
        | none => "Service reported healthy"
      let eventType := match req.logData with | some d => d.eventType | none => ""
      let details := match req.logData with | some d => d.details | none => []
      Service.addLog
        { svc1 with status := ServiceStatus.healthy,
                    successChecks := svc1.successChecks + 1, lastError := "" }
        { timestamp := now, type := "heartbeat", message := logMessage,
          eventType := eventType, details := details }
    else
      let logMessage :=
        match req.logData with
        | some d => if req.errorLog = "" then buildLogMessage d else req.errorLog
        | none => req.errorLog
      let eventType := match req.logData with | some d => d.eventType | none => ""
      let details := match req.logData with | some d => d.details | none => []
      Service.addLog
        { svc1 with status := ServiceStatus.error, lastError := req.errorLog }
        { timestamp := now, type := "error", message := logMessage,
          eventType := eventType, details := details }
  let svc3 : Service :=
    if 0 < svc2.totalChecks then
      { svc2 with uptimePercent := (svc2.successChecks : Rat) / (svc2.totalChecks : Rat) * 100 }
    else svc2
  ({ s with services := upsertEntry s.services req.serviceName svc3 }, svc3)

/-- Embeds `GetService` from handlers.go (the returned record is a copy). -/
def ServiceStore.GetService (s : ServiceStore) (name : String) : Option Service :=
  lookupEntry s.services name

/-- Embeds `GetAllServices` from handlers.go. -/
def ServiceStore.GetAllServices (s : ServiceStore) : List Service :=
  s.services.map (·.2)

/-- The staleness condition of the `CheckTimeouts` loop:
`service.Status != StatusDown && now.Sub(service.LastHeartbeat) > s.timeout`.
With `Nat` timestamps the truncated subtraction agrees with Go's signed
duration comparison, because the threshold is non-negative. -/
def isStale (timeout now : Nat) (svc : Service) : Bool :=
  svc.status != ServiceStatus.down && decide (timeout < now - svc.lastHeartbeat)

/-- The per-service body of the `CheckTimeouts` loop from handlers.go. -/
def sweepService (timeout now : Nat) (svc : Service) : Service :=
  if isStale timeout now svc then
    let svc1 := { svc with status := ServiceStatus.down, totalChecks := svc.totalChecks + 1 }
    let svc2 :=
      if 0 < svc1.totalChecks then
        { svc1 with uptimePercent := (svc1.successChecks : Rat) / (svc1.totalChecks : Rat) * 100 }
      else svc1
    Service.addLog svc2
      { timestamp := now, type := "status",
        message := "Service marked as DOWN - heartbeat timeout", eventType := "", details := [] }
  else svc

/-- Embeds `CheckTimeouts` from handlers.go: mark every stale, not-yet-down
service down and return the newly-down services. -/
def ServiceStore.CheckTimeouts (s : ServiceStore) (now : Nat) : ServiceStore × List Service :=
  ({ s with services := s.services.map (fun e => (e.1, sweepService s.timeout now e.2)) },
   (s.services.filter (fun e => isStale s.timeout now e.2)).map
     (fun e => sweepService s.timeout now e.2))

/-- Modelled from the spec: `CheckTimeoutsAndUpdateUptime` is the sweep
entry point called by `runTimeoutChecker` (handlers.go:412), but its
definition is not under src/ (only `CheckTimeouts` is).  Per spec section
4.2 it performs the same per-record down transition and returns both the
newly-down set and the set of records whose derived fields actually
changed; only newly-down records are mutated, so the changed set consists
of exactly those records. -/
def ServiceStore.CheckTimeoutsAndUpdateUptime (s : ServiceStore) (now : Nat) :
    ServiceStore × List Service × List Service :=
  let r := s.CheckTimeouts now
  (r.1, r.2,
   (s.services.filter (fun e => isStale s.timeout now e.2)).map
     (fun e => sweepService s.timeout now e.2))

/-- Embeds `AddRemediationLog` from handlers.go. -/
def ServiceStore.AddRemediationLog (s : ServiceStore) (serviceName log : String) (now : Nat) :
    ServiceStore :=
  { s with services := updateEntry s.services serviceName (fun svc =>
      let rl := svc.remediationLog ++ [log]
      let svc1 := { svc with remediationLog := if 10 < rl.length then rl.drop (rl.length - 10) else rl }
      Service.addLog svc1
        { timestamp := now, type := "remediation", message := log,
          eventType := "", details := [] }) }

/-- Embeds `RemediationStatus` from remediation_store.go.  The Go string type is
only ever assigned its five declared constants. -/
inductive RemediationStatus
  | pending
  | running
  | success
  | failed
  | timedOut
deriving DecidableEq, Repr

/-- A remediation status is terminal when the attempt is over. -/
def RemediationStatus.isTerminal : RemediationStatus → Bool
  | .success => true
  | .failed => true
  | .timedOut => true
  | _ => false

/-- Embeds `AgentReport` from remediation_store.go. -/
structure AgentReport where
  remediationId : String
  success : Bool
  summary : String
  filesChanged : List String
  commitHash : String
  commitMessage : String
  pushed : Bool
  logs : String
  errorDetails : String
  timestamp : Nat
deriving DecidableEq, Repr

/-- Embeds `RemediationRecord` from remediation_store.go.  `Duration` (a Go
duration string, empty until set) is modelled as `Option Nat` in rounded
seconds; `EndTime : *time.Time` and `ExitCode : *int64` as `Option`. -/
structure RemediationRecord where
  id : String
  serviceName : String
  githubRepo : String
  errorLog : String
  status : RemediationStatus
  containerId : String
  containerName : String
  startTime : Nat
  endTime : Option Nat
  duration : Option Nat
  exitCode : Option Int
  agentReport : Option AgentReport
  errorMessage : String
deriving DecidableEq, Repr

/-- Embeds `RemediationStore` from remediation_store.go. -/
structure RemediationStore where
  records : List (String × RemediationRecord)
  order : List String
deriving DecidableEq, Repr

/-- Embeds `NewRemediationStore` from remediation_store.go. -/
def NewRemediationStore : RemediationStore :=
  { records := [], order := [] }

/-- Embeds `Create` from remediation_store.go: insert a fresh pending record,
append its id to the order list, and evict the oldest record when the
history exceeds 100 entries.  Returns the store and the new record (the
Go function returns a pointer to it). -/
def RemediationStore.Create (s : RemediationStore) (id serviceName githubRepo errorLog : String)
    (now : Nat) : RemediationStore × RemediationRecord :=
  let record : RemediationRecord :=
    { id, serviceName, githubRepo, errorLog, status := RemediationStatus.pending,
      containerId := "", containerName := "", startTime := now, endTime := none,
      duration := none, exitCode := none, agentReport := none, errorMessage := "" }
  let records := upsertEntry s.records id record
  let order := s.order ++ [id]
  (if 100 < order.length then
    { records := eraseEntry records (order.headD ""), order := order.tail }
   else
    { records, order }, record)

/-- The body of `UpdateStatus` from remediation_store.go, acting on one
record: unconditionally overwrite the status; only non-empty container
id/name overwrite. -/
def updateStatusRecord (status : RemediationStatus) (containerId containerName : String)
    (r : RemediationRecord) : RemediationRecord :=
  let r1 := { r with status }
  let r2 := if containerId ≠ "" then { r1 with containerId } else r1
  if containerName ≠ "" then { r2 with containerName } else r2

/-- Embeds `UpdateStatus` from remediation_store.go. -/
def RemediationStore.UpdateStatus (s : RemediationStore) (id : String)
    (status : RemediationStatus) (containerId containerName : String) : RemediationStore :=
  { s with records := updateEntry s.records id (updateStatusRecord status containerId containerName) }

/-- Embeds `Complete` from remediation_store.go: set end time, duration, exit
code and error message, and the terminal status success/failed. -/
def RemediationStore.Complete (s : RemediationStore) (id : String) (success : Bool)
    (exitCode : Int) (errorMsg : String) (now : Nat) : RemediationStore :=
  { s with records := updateEntry s.records id (fun r =>
      { r with endTime := some now, duration := some (now - r.startTime),
               exitCode := some exitCode, errorMessage := errorMsg,
               status := if success then RemediationStatus.success else RemediationStatus.failed }) }

/-- Embeds `SetTimedOut` from remediation_store.go: set end time, duration, the
terminal status timed_out and a fixed error message.  Note that, unlike
`Complete`, it does not set the exit code. -/
def RemediationStore.SetTimedOut (s : RemediationStore) (id : String) (now : Nat) :
    RemediationStore :=
  { s with records := updateEntry s.records id (fun r =>
      { r with endTime := some now, duration := some (now - r.startTime),
               status := RemediationStatus.timedOut,
               errorMessage := "Remediation timed out after 10 minutes" }) }

/-- Embeds `AddAgentReport` from remediation_store.go: attach the report if the
id exists; report whether it was found. -/
def RemediationStore.AddAgentReport (s : RemediationStore) (id : String) (report : AgentReport) :
    RemediationStore × Bool :=
  match lookupEntry s.records id with
  | some _ =>
    ({ s with records := updateEntry s.records id (fun r => { r with agentReport := some report }) },
     true)
  | none => (s, false)

/-- Embeds `Get` from remediation_store.go (the returned record is a copy). -/
def RemediationStore.Get (s : RemediationStore) (id : String) : Option RemediationRecord :=
  lookupEntry s.records id

/-- Embeds `GetAll` from remediation_store.go: walk the order list newest first,
returning the records that still exist. -/
def RemediationStore.GetAll (s : RemediationStore) : List RemediationRecord :=
  s.order.reverse.filterMap (fun id => lookupEntry s.records id)

/-- Embeds `GetByService` from remediation_store.go. -/
def RemediationStore.GetByService (s : RemediationStore) (serviceName : String) :
    List RemediationRecord :=
  (s.order.reverse.filterMap (fun id => lookupEntry s.records id)).filter
    (fun r => r.serviceName == serviceName)

/-- One call into the `RemediationStore` API (the ledger operations the
claims quantify over). -/
inductive LedgerOp
  | create (id serviceName githubRepo errorLog : String) (now : Nat)
  | updateStatus (id : String) (status : RemediationStatus) (containerId containerName : String)
  | complete (id : String) (success : Bool) (exitCode : Int) (errorMsg : String) (now : Nat)
  | setTimedOut (id : String) (now : Nat)
  | addAgentReport (id : String) (report : AgentReport)
deriving DecidableEq, Repr

/-- Apply one ledger operation to the store. -/
def applyLedgerOp (s : RemediationStore) : LedgerOp → RemediationStore
  | .create id sn repo el now => (s.Create id sn repo el now).1
  | .updateStatus id st cid cn => s.UpdateStatus id st cid cn
  | .complete id ok ec msg now => s.Complete id ok ec msg now
  | .setTimedOut id now => s.SetTimedOut id now
  | .addAgentReport id rep => (s.AddAgentReport id rep).1

/-- Apply a sequence of ledger operations left to right. -/
def applyLedgerOps (s : RemediationStore) (ops : List LedgerOp) : RemediationStore :=
  ops.foldl applyLedgerOp s

/-- Outcome of the Docker wait race in `RunOpenCode`: the exit-status
channel, the error channel, or the context deadline. -/
inductive WaitOutcome
  | exited (code : Int)
  | waitErr (msg : String)
  | deadline
deriving DecidableEq, Repr

/-- The injected sandbox backend and credentials consumed by
`RemediationService` (opencode.go): Docker client availability, the two
credential strings, and the replies of the Docker API calls made by one
`RunOpenCode` attempt. -/
structure SandboxEnv where
  hasDockerClient : Bool
  githubPAT : String
  cerebrasKey : String
  pullOk : Bool
  createRes : Except String String
  startErr : Option String
  wait : WaitOutcome
deriving Repr

/-- Observable state of one `RunOpenCode` attempt after one of its
store/Docker actions: the ledger, which containers have been created, and
whether the container start call has returned successfully. -/
structure RunState where
  store : RemediationStore
  createdContainers : List String
  sandboxStarted : Bool
deriving DecidableEq, Repr

/-- Result of one `RunOpenCode` attempt: the snapshots after every
mutating step (`trace`), the final state, and the Go error return. -/
structure RunResult where
  trace : List RunState
  final : RunState
  runError : Option String
deriving DecidableEq, Repr

/-- Embeds `RunOpenCode` from opencode.go, with `remediationID` (a fresh UUID in
Go) and the two wall-clock instants passed explicitly.  The control flow
mirrors the source: create the ledger record; validate Docker client,
GITHUB_PAT and CEREBRAS_API_KEY, completing with exit code -1 on the
first missing prerequisite; best-effort image pull (failure only
logged); mark the record running with the container name; create the
container (completing with -1 on failure); mark running again with the
container id; start it (completing with -1 on failure); then race exit
status, wait error and the 10-minute deadline. -/
def RunOpenCode (env : SandboxEnv) (s0 : RemediationStore)
    (remediationID serviceName repoURL errorLog : String) (tStart tEnd : Nat) : RunResult :=
  let s1 := (s0.Create remediationID serviceName repoURL errorLog tStart).1
  let st1 : RunState := { store := s1, createdContainers := [], sandboxStarted := false }
  if env.hasDockerClient = false then
    let s2 := s1.Complete remediationID false (-1) "Docker client not available" tEnd
    let st2 := { st1 with store := s2 }
    { trace := [st1, st2], final := st2, runError := some "docker client not available" }
  else if env.githubPAT = "" then
    let s2 := s1.Complete remediationID false (-1) "GITHUB_PAT not set" tEnd
    let st2 := { st1 with store := s2 }
    { trace := [st1, st2], final := st2,
      runError := some "GITHUB_PAT environment variable not set" }
  else if env.cerebrasKey = "" then
    let s2 := s1.Complete remediationID false (-1) "CEREBRAS_API_KEY not set" tEnd
    let st2 := { st1 with store := s2 }
    { trace := [st1, st2], final := st2,
      runError := some "CEREBRAS_API_KEY environment variable not set" }
  else
    let containerName := "highline-fix-" ++ remediationID
    let s2 := s1.UpdateStatus remediationID RemediationStatus.running "" containerName
    let st2 := { st1 with store := s2 }
    match env.createRes with
    | Except.error msg =>
      let s3 := s2.Complete remediationID false (-1) ("Failed to create container: " ++ msg) tEnd
      let st3 := { st2 with store := s3 }
      { trace := [st1, st2, st3], final := st3,
        runError := some ("failed to create container: " ++ msg) }
    | Except.ok cid =>
      let s3 := s2.UpdateStatus remediationID RemediationStatus.running cid containerName
      let st3 : RunState := { store := s3, createdContainers := [cid], sandboxStarted := false }
      match env.startErr with
      | some msg =>
        let s4 := s3.Complete remediationID false (-1) ("Failed to start container: " ++ msg) tEnd
        let st4 := { st3 with store := s4 }
        { trace := [st1, st2, st3, st4], final := st4,
          runError := some ("failed to start container: " ++ msg) }
      | none =>
        let st4 := { st3 with sandboxStarted := true }
        match env.wait with
        | WaitOutcome.waitErr msg =>
          let s5 := st4.store.Complete remediationID false (-1) ("Error waiting: " ++ msg) tEnd
          let st5 := { st4 with store := s5 }
          { trace := [st1, st2, st3, st4, st5], final := st5,
            runError := some ("error waiting for container: " ++ msg) }
        | WaitOutcome.exited code =>
          let s5 := st4.store.Complete remediationID (code == 0) code "" tEnd
          let st5 := { st4 with store := s5 }
          { trace := [st1, st2, st3, st4, st5], final := st5,
            runError := if code == 0 then none
                        else some ("container exited with code " ++ toString code) }
        | WaitOutcome.deadline =>
          let s5 := st4.store.SetTimedOut remediationID tEnd
          let st5 := { st4 with store := s5 }
          { trace := [st1, st2, st3, st4, st5], final := st5,
            runError := some "remediation timed out" }

theorem lookupEntry_mem {α : Type} {l : List (String × α)} {k : String} {v : α}
    (h : lookupEntry l k = some v) : (k, v) ∈ l := by
  induction l with
  | nil => simp [lookupEntry] at h
  | cons e rest ih =>
    by_cases he : e.1 = k
    · simp only [lookupEntry, he, if_pos] at h
      have he2 : e = (k, v) := Prod.ext he (Option.some.inj h)
      rw [← he2]
      exact List.mem_cons_self e rest
    · simp only [lookupEntry, he, if_neg, not_false_iff] at h
      exact List.mem_cons_of_mem _ (ih h)

theorem mem_upsertEntry {α : Type} {l : List (String × α)} {k : String} {v : α} {e : String × α}
    (h : e ∈ upsertEntry l k v) : e ∈ l ∨ e = (k, v) := by
  induction l with
  | nil =>
    right
    simpa [upsertEntry] using h
  | cons e0 rest ih =>
    by_cases he : e0.1 = k
    · simp only [upsertEntry, he, if_pos] at h
      rcases List.mem_cons.1 h with h | h
      · right; exact h
      · left; exact List.mem_cons_of_mem _ h
    · simp only [upsertEntry, he, if_neg, not_false_iff] at h
      rcases List.mem_cons.1 h with h | h
      · left; exact h ▸ List.mem_cons_self _ _
      · rcases ih h with h' | h'
        · left; exact List.mem_cons_of_mem _ h'
        · right; exact h'

theorem eraseEntry_sublist {α : Type} (l : List (String × α)) (k : String) :
    (eraseEntry l k).Sublist l := by
  induction l with
  | nil => simp [eraseEntry]
  | cons e rest ih =>
    by_cases he : e.1 = k
    · simp only [eraseEntry, he, if_pos]
      exact List.sublist_cons_self e rest
    · simp only [eraseEntry, he, if_neg, not_false_iff]
      exact ih.cons₂ e

theorem mem_eraseEntry {α : Type} {l : List (String × α)} {k : String} {e : String × α}
    (h : e ∈ eraseEntry l k) : e ∈ l :=
  (eraseEntry_sublist l k).mem h

theorem mem_updateEntry {α : Type} {l : List (String × α)} {k : String} {f : α → α}
    {e : String × α} (h : e ∈ updateEntry l k f) :
    e ∈ l ∨ ∃ v, (k, v) ∈ l ∧ e = (k, f v) := by
  induction l with
  | nil => simp [updateEntry] at h
  | cons e0 rest ih =>
    by_cases he : e0.1 = k
    · simp only [updateEntry, he, if_pos] at h
      rcases List.mem_cons.1 h with h | h
      · right
        exact ⟨e0.2, he ▸ List.mem_cons_self _ _, h⟩
      · left; exact List.mem_cons_of_mem _ h
    · simp only [updateEntry, he, if_neg, not_false_iff] at h
      rcases List.mem_cons.1 h with h | h
      · left; exact h ▸ List.mem_cons_self _ _
      · rcases ih h with h' | ⟨v, hv, he'⟩
        · left; exact List.mem_cons_of_mem _ h'
        · right; exact ⟨v, List.mem_cons_of_mem _ hv, he'⟩

theorem lookupEntry_upsertEntry_self {α : Type} (l : List (String × α)) (k : String) (v : α) :
    lookupEntry (upsertEntry l k v) k = some v := by
  induction l with
  | nil => simp [upsertEntry, lookupEntry]
  | cons e rest ih =>
    by_cases he : e.1 = k
    · simp [upsertEntry, lookupEntry, he]
    · simp [upsertEntry, lookupEntry, he, ih]

theorem lookupEntry_upsertEntry_ne {α : Type} (l : List (String × α)) (k : String) (v : α)
    {j : String} (h : j ≠ k) : lookupEntry (upsertEntry l k v) j = lookupEntry l j := by
  have hkj : ¬ (k = j) := fun hh => h hh.symm
  induction l with
  | nil => simp [upsertEntry, lookupEntry, hkj]
  | cons e rest ih =>
    by_cases he : e.1 = k
    · have hej : ¬ (e.1 = j) := by rw [he]; exact hkj
      simp [upsertEntry, lookupEntry, he, hej, hkj]
    · by_cases hej : e.1 = j
      · simp [upsertEntry, lookupEntry, he, hej, h]
      · simp [upsertEntry, lookupEntry, he, hej, ih]

theorem lookupEntry_updateEntry_self {α : Type} (l : List (String × α)) (k : String) (f : α → α) :
    lookupEntry (updateEntry l k f) k = (lookupEntry l k).map f := by
  induction l with
  | nil => simp [updateEntry, lookupEntry]
  | cons e rest ih =>
    by_cases he : e.1 = k
    · simp [updateEntry, lookupEntry, he]
    · simp [updateEntry, lookupEntry, he, ih]

theorem lookupEntry_updateEntry_ne {α : Type} (l : List (String × α)) (k : String) (f : α → α)
    {j : String} (h : j ≠ k) : lookupEntry (updateEntry l k f) j = lookupEntry l j := by
  have hkj : ¬ (k = j) := fun hh => h hh.symm
  induction l with
  | nil => simp [updateEntry, lookupEntry]
  | cons e rest ih =>
    by_cases he : e.1 = k
    · have hej : ¬ (e.1 = j) := by rw [he]; exact hkj
      simp [updateEntry, lookupEntry, he, hej, hkj]
    · by_cases hej : e.1 = j
      · simp [updateEntry, lookupEntry, he, hej, h]
      · simp [updateEntry, lookupEntry, he, hej, ih]

theorem lookupEntry_eraseEntry_ne {α : Type} (l : List (String × α)) (k : String)
    {j : String} (h : j ≠ k) : lookupEntry (eraseEntry l k) j = lookupEntry l j := by
  have hkj : ¬ (k = j) := fun hh => h hh.symm
  induction l with
  | nil => simp [eraseEntry]
  | cons e rest ih =>
    by_cases he : e.1 = k
    · have hej : ¬ (e.1 = j) := by rw [he]; exact hkj
      simp [eraseEntry, lookupEntry, he, hej, hkj]
    · by_cases hej : e.1 = j
      · simp [eraseEntry, lookupEntry, he, hej, h]
      · simp [eraseEntry, lookupEntry, he, hej, ih]

theorem lookupEntry_eq_none_of_not_mem_keys {α : Type} {l : List (String × α)} {k : String}
    (h : k ∉ l.map Prod.fst) : lookupEntry l k = none := by
  induction l with
  | nil => simp [lookupEntry]
  | cons e rest ih =>
    simp only [List.map_cons, List.mem_cons, not_or] at h
    have he : ¬ (e.1 = k) := fun hh => h.1 hh.symm
    simp [lookupEntry, he, ih h.2]

theorem lookupEntry_eraseEntry_self {α : Type} {l : List (String × α)} {k : String}
    (h : (l.map Prod.fst).Nodup) : lookupEntry (eraseEntry l k) k = none := by
  induction l with
  | nil => simp [eraseEntry, lookupEntry]
  | cons e rest ih =>
    simp only [List.map_cons, List.nodup_cons] at h
    by_cases he : e.1 = k
    · simp only [eraseEntry, he, if_pos]
      exact lookupEntry_eq_none_of_not_mem_keys (he ▸ h.1)
    · simp [eraseEntry, lookupEntry, he, ih h.2]

theorem mem_keys_upsertEntry {α : Type} {l : List (String × α)} {k : String} {v : α} {a : String}
    (h : a ∈ (upsertEntry l k v).map Prod.fst) : a ∈ l.map Prod.fst ∨ a = k := by
  rcases List.mem_map.1 h with ⟨e, he, rfl⟩
  rcases mem_upsertEntry he with h' | h'
  · left; exact List.mem_map_of_mem _ h'
  · right; rw [h']

theorem keys_nodup_upsertEntry {α : Type} {l : List (String × α)} (k : String) (v : α)
    (h : (l.map Prod.fst).Nodup) : ((upsertEntry l k v).map Prod.fst).Nodup := by
  induction l with
  | nil => simp [upsertEntry]
  | cons e rest ih =>
    simp only [List.map_cons, List.nodup_cons] at h
    by_cases he : e.1 = k
    · simp only [upsertEntry, he, if_pos, List.map_cons, List.nodup_cons]
      exact ⟨he ▸ h.1, h.2⟩
    · simp only [upsertEntry, he, if_neg, not_false_iff, List.map_cons, List.nodup_cons]
      refine ⟨?_, ih h.2⟩
      intro hmem
      rcases mem_keys_upsertEntry hmem with h' | h'
      · exact h.1 h'
      · exact he h'

theorem keys_nodup_eraseEntry {α : Type} {l : List (String × α)} (k : String)
    (h : (l.map Prod.fst).Nodup) : ((eraseEntry l k).map Prod.fst).Nodup :=
  ((eraseEntry_sublist l k).map Prod.fst).nodup h

theorem keys_updateEntry {α : Type} (l : List (String × α)) (k : String) (f : α → α) :
    (updateEntry l k f).map Prod.fst = l.map Prod.fst := by
  induction l with
  | nil => simp [updateEntry]
  | cons e rest ih =>
    by_cases he : e.1 = k
    · simp [updateEntry, he]
    · simp [updateEntry, he, ih]

theorem lookupEntry_map_value {α : Type} (l : List (String × α)) (g : α → α) (k : String) :
    lookupEntry (l.map (fun e => (e.1, g e.2))) k = (lookupEntry l k).map g := by
  induction l with
  | nil => simp [lookupEntry]
  | cons e rest ih =>
    by_cases he : e.1 = k
    · simp [lookupEntry, he]
    · simp [lookupEntry, he, ih]

theorem pushLog_eq_drop (l : List LogEntry) (e : LogEntry) :
    pushLog l e = (l ++ [e]).drop ((l ++ [e]).length - 100) := by
  by_cases h : 100 < (l ++ [e]).length
  · rw [pushLog, if_pos h]
  · rw [pushLog, if_neg h, Nat.sub_eq_zero_of_le (Nat.le_of_not_lt h), List.drop_zero]

theorem pushLog_length (l : List LogEntry) (e : LogEntry) :
    (pushLog l e).length = min (l.length + 1) 100 := by
  rw [pushLog_eq_drop, List.length_drop]
  simp only [List.length_append, List.length_cons, List.length_nil]
  omega

theorem pushLog_getLast? (l : List LogEntry) (e : LogEntry) :
    (pushLog l e).getLast? = some e := by
  have hd' : (l ++ [e]).length - 100 ≤ l.length := by
    simp only [List.length_append, List.length_cons, List.length_nil]
    omega
  rw [pushLog_eq_drop, List.drop_append_of_le_length hd']
  simp

theorem foldl_pushLog_eq : ∀ (es l : List LogEntry), l.length ≤ 100 →
    es.foldl pushLog l = (l ++ es).drop ((l ++ es).length - 100)
  | [], l, h => by simp [Nat.sub_eq_zero_of_le h]
  | e :: es, l, h => by
    have hlen : (pushLog l e).length ≤ 100 := by rw [pushLog_length]; omega
    have ih := foldl_pushLog_eq es (pushLog l e) hlen
    have hd : (l ++ [e]).length - 100 ≤ (l ++ [e]).length := Nat.sub_le _ _
    rw [List.foldl_cons, ih, pushLog_eq_drop, ← List.drop_append_of_le_length hd,
      List.drop_drop]
    have hassoc : l ++ [e] ++ es = l ++ e :: es := by simp
    rw [hassoc]
    have hamount :
        ((l ++ [e]).length - 100) +
            (((l ++ e :: es).drop ((l ++ [e]).length - 100)).length - 100)
          = (l ++ e :: es).length - 100 := by
      simp only [List.length_drop, List.length_append, List.length_cons, List.length_nil]
      omega
    rw [hamount]

theorem foldl_addLog_logs : ∀ (es : List LogEntry) (svc : Service),
    (es.foldl Service.addLog svc).logs = es.foldl pushLog svc.logs
  | [], svc => rfl
  | e :: es, svc => by
    rw [List.foldl_cons, List.foldl_cons, foldl_addLog_logs es]
    rfl

/-- Claim C6: for every service and every sequence of appended structured
log entries (all log appends in handlers.go go through `addLog`), the
`Logs` slice afterwards is exactly the most recent `min M 100` entries in
their original relative order; with `M > 100` appends exactly the most
recent 100 remain, and the bound 100 is never exceeded.  Quantifying over
every `entries` list covers the state after every intermediate append. -/
theorem c6_log_ring_bounded (svc : Service) (entries : List LogEntry)
    (h : svc.logs = []) :
    (entries.foldl Service.addLog svc).logs = entries.drop (entries.length - 100) ∧
    (entries.foldl Service.addLog svc).logs.length = min entries.length 100 ∧
    (100 < entries.length → (entries.foldl Service.addLog svc).logs.length = 100) := by
  have h0 : (entries.foldl Service.addLog svc).logs
      = entries.drop (entries.length - 100) := by
    rw [foldl_addLog_logs, h, foldl_pushLog_eq entries [] (by simp)]
    simp
  refine ⟨h0, ?_, ?_⟩
  · rw [h0, List.length_drop]; omega
  · intro hM; rw [h0, List.length_drop]; omega

/-- A sample log entry for concrete evaluation. -/
def logEntryW : LogEntry :=
  { timestamp := 1, type := "heartbeat", message := "m", eventType := "", details := [] }

/-- A service record with empty logs for concrete evaluation. -/
def svcW : Service :=
  { name := "svc-a", githubRepo := "", status := ServiceStatus.healthy, lastHeartbeat := 0,
    lastError := "", uptimePercent := 0, totalChecks := 0, successChecks := 0,
    remediationLog := [], logs := [] }

/-- Witness for C6 at a concrete 101-entry append sequence. -/
theorem c6_log_ring_bounded_witness :
    ((List.replicate 101 logEntryW).foldl Service.addLog svcW).logs
        = (List.replicate 101 logEntryW).drop ((List.replicate 101 logEntryW).length - 100) ∧
    ((List.replicate 101 logEntryW).foldl Service.addLog svcW).logs.length
        = min (List.replicate 101 logEntryW).length 100 ∧
    (100 < (List.replicate 101 logEntryW).length →
      ((List.replicate 101 logEntryW).foldl Service.addLog svcW).logs.length = 100) :=
  c6_log_ring_bounded svcW (List.replicate 101 logEntryW) rfl

/-- Claim C9: `AddAgentReport(id, report)` returns true iff a record with
that id exists; when it exists it sets only that record's agent report,
leaves every other field (in particular the status) and every other
record unchanged; when the id is unknown it is a no-op returning false. -/
theorem c9_addAgentReport_frame (s : RemediationStore) (id : String) (report : AgentReport) :
    ((s.AddAgentReport id report).2 = true ↔ (s.Get id).isSome = true) ∧
    (s.AddAgentReport id report).1.order = s.order ∧
    ((s.AddAgentReport id report).2 = false → (s.AddAgentReport id report).1 = s) ∧
    (∀ j, j ≠ id → (s.AddAgentReport id report).1.Get j = s.Get j) ∧
    (∀ rec, s.Get id = some rec →
      (s.AddAgentReport id report).1.Get id = some { rec with agentReport := some report }) := by
  unfold RemediationStore.AddAgentReport RemediationStore.Get
  cases hl : lookupEntry s.records id with
  | none =>
    refine ⟨by simp, rfl, fun _ => rfl, fun j hj => rfl, ?_⟩
    intro rec hrec
    exact absurd hrec (by simp)
  | some r =>
    refine ⟨by simp, rfl, by simp, ?_, ?_⟩
    · intro j hj
      simpa using lookupEntry_updateEntry_ne s.records id _ hj
    · intro rec hrec
      have hr : r = rec := Option.some.inj hrec
      subst hr
      simp [lookupEntry_updateEntry_self, hl]

/-- A sample agent report for concrete evaluation. -/
def reportW : AgentReport :=
  { remediationId := "r1", success := true, summary := "fixed", filesChanged := ["README.md"],
    commitHash := "abc", commitMessage := "fix", pushed := true, logs := "", errorDetails := "",
    timestamp := 9 }

/-- A one-record ledger for concrete evaluation. -/
def ledgerW : RemediationStore :=
  (NewRemediationStore.Create "r1" "svc-a" "https://example/x/y" "boom" 0).1

/-- Witness for C9: attaching a report to the one existing record. -/
theorem c9_addAgentReport_frame_witness :
    (ledgerW.AddAgentReport "r1" reportW).1.Get "r1" =
      some { (ledgerW.Create "r1" "svc-a" "https://example/x/y" "boom" 0).2 with
               agentReport := some reportW } := by
  have h := (c9_addAgentReport_frame ledgerW "r1" reportW).2.2.2.2
    (ledgerW.Create "r1" "svc-a" "https://example/x/y" "boom" 0).2 (by decide)
  exact h

/-- Claim C2 counterexample: after `Create("a")` and a terminal
`Complete("a", true, 0)`, a subsequent `UpdateStatus("a", running)` resets
the status from the terminal `success` back to `running`, because
`UpdateStatus` overwrites the status unconditionally. -/
theorem c2_terminal_reset_counterexample :
    ((applyLedgerOps NewRemediationStore
        [LedgerOp.create "a" "svc-a" "repo" "boom" 0,
         LedgerOp.complete "a" true 0 "" 5]).Get "a").map RemediationRecord.status =
      some RemediationStatus.success ∧
    ((applyLedgerOps NewRemediationStore
        [LedgerOp.create "a" "svc-a" "repo" "boom" 0,
         LedgerOp.complete "a" true 0 "" 5,
         LedgerOp.updateStatus "a" RemediationStatus.running "" ""]).Get "a").map
        RemediationRecord.status = some RemediationStatus.running := by
  constructor <;> rfl

/-- Embeds `Create` and `UpdateStatus` on a given id are the two ledger
operations that can overwrite that record's status with a non-terminal
value. -/
def opCanResetId (op : LedgerOp) (id : String) : Bool :=
  match op with
  | LedgerOp.create i _ _ _ _ => i == id
  | LedgerOp.updateStatus i _ _ _ => i == id
  | _ => false

theorem c2_step_terminal_preserved (s : RemediationStore) (op : LedgerOp) (id : String)
    (hop : opCanResetId op id = false)
    (h : ∀ e ∈ s.records, e.1 = id → e.2.status.isTerminal = true) :
    ∀ e ∈ (applyLedgerOp s op).records, e.1 = id → e.2.status.isTerminal = true := by
  intro e he hid
  cases op with
  | create i sn repo el now =>
    have hi : i ≠ id := by simpa [opCanResetId] using hop
    simp only [applyLedgerOp, RemediationStore.Create] at he
    by_cases hc : 100 < (s.order ++ [i]).length
    · rw [if_pos hc] at he
      rcases mem_upsertEntry (mem_eraseEntry he) with h' | h'
      · exact h e h' hid
      · rw [h'] at hid
        exact absurd hid hi
    · rw [if_neg hc] at he
      rcases mem_upsertEntry he with h' | h'
      · exact h e h' hid
      · rw [h'] at hid
        exact absurd hid hi
  | updateStatus i st cid cn =>
    have hi : i ≠ id := by simpa [opCanResetId] using hop
    simp only [applyLedgerOp, RemediationStore.UpdateStatus] at he
    rcases mem_updateEntry he with h' | ⟨v, hv, h'⟩
    · exact h e h' hid
    · rw [h'] at hid
      exact absurd hid hi
  | complete i ok ec msg now =>
    simp only [applyLedgerOp, RemediationStore.Complete] at he
    rcases mem_updateEntry he with h' | ⟨v, hv, h'⟩
    · exact h e h' hid
    · rw [h']
      cases ok <;> simp [RemediationStatus.isTerminal]
  | setTimedOut i now =>
    simp only [applyLedgerOp, RemediationStore.SetTimedOut] at he
    rcases mem_updateEntry he with h' | ⟨v, hv, h'⟩
    · exact h e h' hid
    · rw [h']
      simp [RemediationStatus.isTerminal]
  | addAgentReport i rep =>
    simp only [applyLedgerOp, RemediationStore.AddAgentReport] at he
    cases hl : lookupEntry s.records i with
    | none =>
      rw [hl] at he
      exact h e he hid
    | some r =>
      rw [hl] at he
      rcases mem_updateEntry he with h' | ⟨v, hv, h'⟩
      · exact h e h' hid
      · rw [h'] at hid
        have hvi : v.status.isTerminal = true := h (i, v) hv hid
        rw [h']
        simpa using hvi

/-- Claim C2 (amended): the claim as stated is false — `UpdateStatus`
overwrites the status unconditionally, so `UpdateStatus(id, running)`
after a terminal transition resets it (see the counterexample), and a
repeated `Create` with the same id replaces the record with a fresh
pending one.  Amended: once a record's status is terminal, every
subsequent sequence of ledger operations that contains no `UpdateStatus`
and no `Create` on that id (Complete, SetTimedOut and AddAgentReport on
any id, and any operation on other ids) leaves the status terminal. -/
theorem c2_terminal_monotone_amended :
    ∀ (ops : List LedgerOp) (s : RemediationStore) (id : String),
      (∀ op ∈ ops, opCanResetId op id = false) →
      (∀ e ∈ s.records, e.1 = id → e.2.status.isTerminal = true) →
      ∀ r, (applyLedgerOps s ops).Get id = some r → r.status.isTerminal = true := by
  intro ops
  induction ops with
  | nil =>
    intro s id hops h r hr
    exact h (id, r) (lookupEntry_mem hr) rfl
  | cons op ops ih =>
    intro s id hops h r hr
    exact ih (applyLedgerOp s op) id (fun o ho => hops o (List.mem_cons_of_mem _ ho))
      (c2_step_terminal_preserved s op id (hops op (List.mem_cons_self _ _)) h) r hr

/-- The ledger record "a" after Create, Complete(false, 7) and a Create of
an unrelated id "b": used to witness the amended C2. -/
def recC2 : RemediationRecord :=
  { id := "a", serviceName := "svc-a", githubRepo := "repo", errorLog := "boom",
    status := RemediationStatus.failed, containerId := "", containerName := "",
    startTime := 0, endTime := some 5, duration := some 5, exitCode := some 7,
    agentReport := none, errorMessage := "oom" }

/-- Witness for the amended C2: a terminal (failed) record stays terminal
across an AddAgentReport on it and a Create of a different id. -/
theorem c2_terminal_monotone_amended_witness : recC2.status.isTerminal = true :=
  c2_terminal_monotone_amended
    [LedgerOp.addAgentReport "a" reportW, LedgerOp.create "b" "svc-b" "r2" "e2" 9]
    (applyLedgerOps NewRemediationStore
      [LedgerOp.create "a" "svc-a" "repo" "boom" 0,
       LedgerOp.complete "a" false 7 "oom" 5])
    "a" (by decide) (by decide)
    { recC2 with agentReport := some reportW } (by decide)

/-- Claim C3 counterexample: a record completed via `SetTimedOut` has the
terminal status `timed_out` but no exit code, because `SetTimedOut` (unlike
`Complete`) never writes the exit code; so terminal status does not
co-occur with a populated exit code. -/
theorem c3_timedout_exitcode_counterexample :
    ((applyLedgerOps NewRemediationStore
        [LedgerOp.create "a" "svc-a" "repo" "boom" 0,
         LedgerOp.setTimedOut "a" 5]).Get "a").map
        (fun r => (r.status.isTerminal, r.status, r.exitCode, r.endTime)) =
      some (true, RemediationStatus.timedOut, (none : Option Int), some 5) := by
  rfl

/-- The record self-consistency that actually holds on the code: end time
and duration are populated together; an exit code implies an end time; a
terminal status implies end time and duration are populated (but not
necessarily an exit code, see the counterexample); an end time implies the
status is not pending. -/
def recordConsistent (r : RemediationRecord) : Prop :=
  (r.endTime.isSome = true ↔ r.duration.isSome = true) ∧
  (r.exitCode.isSome = true → r.endTime.isSome = true) ∧
  (r.status.isTerminal = true → r.endTime.isSome = true ∧ r.duration.isSome = true) ∧
  (r.endTime.isSome = true → r.status ≠ RemediationStatus.pending)

/-- The repository only ever calls `UpdateStatus` with status `running`
(opencode.go lines 126 and 171); this predicate restricts operation
sequences accordingly. -/
def opUpdatesOnlyRunning (op : LedgerOp) : Bool :=
  match op with
  | LedgerOp.updateStatus _ st _ _ => st == RemediationStatus.running
  | _ => true

theorem updateStatusRecord_fields (st : RemediationStatus) (cid cn : String)
    (r : RemediationRecord) :
    (updateStatusRecord st cid cn r).status = st ∧
    (updateStatusRecord st cid cn r).endTime = r.endTime ∧
    (updateStatusRecord st cid cn r).duration = r.duration ∧
    (updateStatusRecord st cid cn r).exitCode = r.exitCode := by
  unfold updateStatusRecord
  by_cases h1 : cid ≠ "" <;> by_cases h2 : cn ≠ "" <;> simp [h1, h2]

theorem c3_step_consistent (s : RemediationStore) (op : LedgerOp)
    (hop : opUpdatesOnlyRunning op = true)
    (h : ∀ e ∈ s.records, recordConsistent e.2) :
    ∀ e ∈ (applyLedgerOp s op).records, recordConsistent e.2 := by
  intro e he
  cases op with
  | create i sn repo el now =>
    simp only [applyLedgerOp, RemediationStore.Create] at he
    by_cases hc : 100 < (s.order ++ [i]).length
    · rw [if_pos hc] at he
      rcases mem_upsertEntry (mem_eraseEntry he) with h' | h'
      · exact h e h'
      · rw [h']
        simp [recordConsistent, RemediationStatus.isTerminal]
    · rw [if_neg hc] at he
      rcases mem_upsertEntry he with h' | h'
      · exact h e h'
      · rw [h']
        simp [recordConsistent, RemediationStatus.isTerminal]
  | updateStatus i st cid cn =>
    have hst : st = RemediationStatus.running := by
      simpa [opUpdatesOnlyRunning] using hop
    subst hst
    simp only [applyLedgerOp, RemediationStore.UpdateStatus] at he
    rcases mem_updateEntry he with h' | ⟨v, hv, h'⟩
    · exact h e h'
    · obtain ⟨c1, c2, c3, c4⟩ := h (i, v) hv
      obtain ⟨f1, f2, f3, f4⟩ :=
        updateStatusRecord_fields RemediationStatus.running cid cn v
      rw [h']
      refine ⟨?_, ?_, ?_, ?_⟩
      · show (updateStatusRecord _ _ _ v).endTime.isSome = true ↔
            (updateStatusRecord _ _ _ v).duration.isSome = true
        rw [f2, f3]
        exact c1
      · show (updateStatusRecord _ _ _ v).exitCode.isSome = true →
            (updateStatusRecord _ _ _ v).endTime.isSome = true
        rw [f4, f2]
        exact c2
      · show (updateStatusRecord _ _ _ v).status.isTerminal = true → _
        rw [f1]
        intro ht
        exact absurd ht (by simp [RemediationStatus.isTerminal])
      · show (updateStatusRecord _ _ _ v).endTime.isSome = true →
            (updateStatusRecord _ _ _ v).status ≠ RemediationStatus.pending
        rw [f2, f1]
        intro _
        simp
  | complete i ok ec msg now =>
    simp only [applyLedgerOp, RemediationStore.Complete] at he
    rcases mem_updateEntry he with h' | ⟨v, hv, h'⟩
    · exact h e h'
    · rw [h']
      cases ok <;> simp [recordConsistent, RemediationStatus.isTerminal]
  | setTimedOut i now =>
    simp only [applyLedgerOp, RemediationStore.SetTimedOut] at he
    rcases mem_updateEntry he with h' | ⟨v, hv, h'⟩
    · exact h e h'
    · rw [h']
      simp [recordConsistent, RemediationStatus.isTerminal]
  | addAgentReport i rep =>
    simp only [applyLedgerOp, RemediationStore.AddAgentReport] at he
    cases hl : lookupEntry s.records i with
    | none =>
      rw [hl] at he
      exact h e he
    | some r =>
      rw [hl] at he
      rcases mem_updateEntry he with h' | ⟨v, hv, h'⟩
      · exact h e h'
      · obtain ⟨c1, c2, c3, c4⟩ := h (i, v) hv
        rw [h']
        exact ⟨c1, c2, c3, c4⟩

theorem c3_store_consistent :
    ∀ (ops : List LedgerOp) (s : RemediationStore),
      (∀ op ∈ ops, opUpdatesOnlyRunning op = true) →
      (∀ e ∈ s.records, recordConsistent e.2) →
      ∀ e ∈ (applyLedgerOps s ops).records, recordConsistent e.2 := by
  intro ops
  induction ops with
  | nil => intro s hops h; exact h
  | cons op ops ih =>
    intro s hops h
    exact ih (applyLedgerOp s op)
      (fun o ho => hops o (List.mem_cons_of_mem _ ho))
      (c3_step_consistent s op (hops op (List.mem_cons_self _ _)) h)

/-- Claim C3 (amended): the claim as stated is false — `SetTimedOut` sets
end time and duration but never the exit code, so a timed-out record is
terminal with an unpopulated exit code (see the counterexample); also
`UpdateStatus` can overwrite the status of a completed record, so the
invariant is stated for operation sequences in which `UpdateStatus` is
only called with status `running`, which is the only status the
repository ever passes.  Amended: after any such sequence, every record
returned by Get, GetAll or GetByService satisfies: end time and duration
are populated together; a populated exit code implies a populated end
time; a terminal status implies populated end time and duration; and a
record with an end time never has status pending. -/
theorem c3_self_consistency_amended (ops : List LedgerOp) (s : RemediationStore)
    (hops : ∀ op ∈ ops, opUpdatesOnlyRunning op = true)
    (hs : ∀ e ∈ s.records, recordConsistent e.2) :
    (∀ id r, (applyLedgerOps s ops).Get id = some r → recordConsistent r) ∧
    (∀ r ∈ (applyLedgerOps s ops).GetAll, recordConsistent r) ∧
    (∀ sn r, r ∈ (applyLedgerOps s ops).GetByService sn → recordConsistent r) := by
  have hinv := c3_store_consistent ops s hops hs
  refine ⟨?_, ?_, ?_⟩
  · intro id r hr
    exact hinv (id, r) (lookupEntry_mem hr)
  · intro r hr
    unfold RemediationStore.GetAll at hr
    rcases List.mem_filterMap.1 hr with ⟨id, _, hlk⟩
    exact hinv (id, r) (lookupEntry_mem hlk)
  · intro sn r hr
    unfold RemediationStore.GetByService at hr
    rcases List.mem_filterMap.1 (List.mem_filter.1 hr).1 with ⟨id, _, hlk⟩
    exact hinv (id, r) (lookupEntry_mem hlk)

/-- The record produced by Create, UpdateStatus(running) and a successful
Complete, used to witness the amended C3. -/
def recC3 : RemediationRecord :=
  { id := "a", serviceName := "svc-a", githubRepo := "repo", errorLog := "boom",
    status := RemediationStatus.success, containerId := "c1", containerName := "n1",
    startTime := 0, endTime := some 5, duration := some 5, exitCode := some 0,
    agentReport := none, errorMessage := "" }

/-- Witness for the amended C3 on a concrete run of the orchestrator's
call sequence. -/
theorem c3_self_consistency_amended_witness : recordConsistent recC3 :=
  (c3_self_consistency_amended
    [LedgerOp.create "a" "svc-a" "repo" "boom" 0,
     LedgerOp.updateStatus "a" RemediationStatus.running "c1" "n1",
     LedgerOp.complete "a" true 0 "" 5]
    NewRemediationStore (by decide)
    (by intro e he; exact absurd he (List.not_mem_nil e))).1 "a" recC3 (by decide)

theorem create_get_fresh (s0 : RemediationStore) (rid sn repo el : String) (t1 : Nat)
    (hfresh : rid ∉ s0.order) :
    (s0.Create rid sn repo el t1).1.Get rid = some (s0.Create rid sn repo el t1).2 := by
  simp only [RemediationStore.Create, RemediationStore.Get]
  by_cases hc : 100 < (s0.order ++ [rid]).length
  · rw [if_pos hc]
    cases ho : s0.order with
    | nil =>
      rw [ho] at hc
      simp at hc
    | cons a l' =>
      have ha : a ∈ s0.order := by rw [ho]; exact List.mem_cons_self _ _
      have hne : rid ≠ a := fun hh => hfresh (by rw [hh]; exact ha)
      simp only [List.cons_append, List.headD_cons]
      rw [lookupEntry_eraseEntry_ne _ _ hne, lookupEntry_upsertEntry_self]
  · rw [if_neg hc, lookupEntry_upsertEntry_self]

theorem complete_after_create_get (s0 : RemediationStore) (rid sn repo el : String)
    (t1 : Nat) (ok : Bool) (ec : Int) (msg : String) (t2 : Nat)
    (hfresh : rid ∉ s0.order) :
    ((s0.Create rid sn repo el t1).1.Complete rid ok ec msg t2).Get rid =
      some { id := rid, serviceName := sn, githubRepo := repo, errorLog := el,
             status := if ok then RemediationStatus.success else RemediationStatus.failed,
             containerId := "", containerName := "", startTime := t1,
             endTime := some t2, duration := some (t2 - t1), exitCode := some ec,
             agentReport := none, errorMessage := msg } := by
  have hg := create_get_fresh s0 rid sn repo el t1 hfresh
  unfold RemediationStore.Get at hg ⊢
  unfold RemediationStore.Complete
  rw [lookupEntry_updateEntry_self, hg]
  rfl

theorem complete_after_create_frame (s0 : RemediationStore) (rid sn repo el : String)
    (t1 : Nat) (ok : Bool) (ec : Int) (msg : String) (t2 : Nat)
    (hlen : s0.order.length < 100) (j : String) (hj : j ≠ rid) :
    ((s0.Create rid sn repo el t1).1.Complete rid ok ec msg t2).Get j = s0.Get j := by
  have hc : ¬ 100 < (s0.order ++ [rid]).length := by
    simp only [List.length_append, List.length_cons, List.length_nil]
    omega
  unfold RemediationStore.Complete RemediationStore.Get
  rw [lookupEntry_updateEntry_ne _ _ _ hj]
  simp only [RemediationStore.Create, if_neg hc]
  rw [lookupEntry_upsertEntry_ne _ _ _ hj]

/-- Claim C8: when a prerequisite is missing (no Docker client, empty
GITHUB_PAT, or empty CEREBRAS_API_KEY), `RunOpenCode` aborts immediately:
it returns an error, completes the ledger record with success=false and
exit code -1 and a message naming the (first) missing prerequisite, no
sandbox container is created or started, and no other ledger record is
touched.  `rid` is the fresh UUID generated for the attempt, hence not in
the ledger order. -/
theorem c8_missing_prereq_aborts (env : SandboxEnv) (s0 : RemediationStore)
    (rid sn repo el : String) (t1 t2 : Nat)
    (hfresh : rid ∉ s0.order)
    (hpre : env.hasDockerClient = false ∨ env.githubPAT = "" ∨ env.cerebrasKey = "") :
    (RunOpenCode env s0 rid sn repo el t1 t2).runError.isSome = true ∧
    (RunOpenCode env s0 rid sn repo el t1 t2).final.createdContainers = [] ∧
    (RunOpenCode env s0 rid sn repo el t1 t2).final.sandboxStarted = false ∧
    (∃ r, (RunOpenCode env s0 rid sn repo el t1 t2).final.store.Get rid = some r ∧
      r.status = RemediationStatus.failed ∧ r.exitCode = some (-1) ∧ r.endTime = some t2 ∧
      (env.hasDockerClient = false → r.errorMessage = "Docker client not available") ∧
      (env.hasDockerClient = true → env.githubPAT = "" →
        r.errorMessage = "GITHUB_PAT not set") ∧
      (env.hasDockerClient = true → env.githubPAT ≠ "" → env.cerebrasKey = "" →
        r.errorMessage = "CEREBRAS_API_KEY not set")) ∧
    (s0.order.length < 100 → ∀ j, j ≠ rid →
      (RunOpenCode env s0 rid sn repo el t1 t2).final.store.Get j = s0.Get j) := by
  by_cases h1 : env.hasDockerClient = false
  · have heq : RunOpenCode env s0 rid sn repo el t1 t2 =
        { trace := [⟨(s0.Create rid sn repo el t1).1, [], false⟩,
                    ⟨(s0.Create rid sn repo el t1).1.Complete rid false (-1)
                       "Docker client not available" t2, [], false⟩],
          final := ⟨(s0.Create rid sn repo el t1).1.Complete rid false (-1)
                       "Docker client not available" t2, [], false⟩,
          runError := some "docker client not available" } := by
      simp only [RunOpenCode]
      rw [if_pos h1]
    rw [heq]
    refine ⟨rfl, rfl, rfl, ?_, ?_⟩
    · exact ⟨_, complete_after_create_get s0 rid sn repo el t1 false (-1) _ t2 hfresh,
        rfl, rfl, rfl, fun _ => rfl,
        fun hdc _ => absurd (h1.symm.trans hdc) Bool.false_ne_true,
        fun hdc _ _ => absurd (h1.symm.trans hdc) Bool.false_ne_true⟩
    · intro hlen j hj
      exact complete_after_create_frame s0 rid sn repo el t1 false (-1) _ t2 hlen j hj
  · by_cases h2 : env.githubPAT = ""
    · have heq : RunOpenCode env s0 rid sn repo el t1 t2 =
          { trace := [⟨(s0.Create rid sn repo el t1).1, [], false⟩,
                      ⟨(s0.Create rid sn repo el t1).1.Complete rid false (-1)
                         "GITHUB_PAT not set" t2, [], false⟩],
            final := ⟨(s0.Create rid sn repo el t1).1.Complete rid false (-1)
                         "GITHUB_PAT not set" t2, [], false⟩,
            runError := some "GITHUB_PAT environment variable not set" } := by
        simp only [RunOpenCode]
        rw [if_neg h1, if_pos h2]
      rw [heq]
      refine ⟨rfl, rfl, rfl, ?_, ?_⟩
      · exact ⟨_, complete_after_create_get s0 rid sn repo el t1 false (-1) _ t2 hfresh,
          rfl, rfl, rfl, fun hdc => absurd hdc h1,
          fun _ _ => rfl, fun _ hpat _ => absurd h2 hpat⟩
      · intro hlen j hj
        exact complete_after_create_frame s0 rid sn repo el t1 false (-1) _ t2 hlen j hj
    · by_cases h3 : env.cerebrasKey = ""
      · have heq : RunOpenCode env s0 rid sn repo el t1 t2 =
            { trace := [⟨(s0.Create rid sn repo el t1).1, [], false⟩,
                        ⟨(s0.Create rid sn repo el t1).1.Complete rid false (-1)
                           "CEREBRAS_API_KEY not set" t2, [], false⟩],
              final := ⟨(s0.Create rid sn repo el t1).1.Complete rid false (-1)
                           "CEREBRAS_API_KEY not set" t2, [], false⟩,
              runError := some "CEREBRAS_API_KEY environment variable not set" } := by
          simp only [RunOpenCode]
          rw [if_neg h1, if_neg h2, if_pos h3]
        rw [heq]
        refine ⟨rfl, rfl, rfl, ?_, ?_⟩
        · exact ⟨_, complete_after_create_get s0 rid sn repo el t1 false (-1) _ t2 hfresh,
            rfl, rfl, rfl, fun hdc => absurd hdc h1,
            fun _ hpat => absurd hpat h2, fun _ _ _ => rfl⟩
        · intro hlen j hj
          exact complete_after_create_frame s0 rid sn repo el t1 false (-1) _ t2 hlen j hj
      · rcases hpre with h | h | h
        · exact absurd h h1
        · exact absurd h h2
        · exact absurd h h3

/-- An environment with the Docker client missing, for the C8 witness. -/
def envC8 : SandboxEnv :=
  { hasDockerClient := false, githubPAT := "", cerebrasKey := "", pullOk := true,
    createRes := Except.error "no docker", startErr := some "no docker",
    wait := WaitOutcome.deadline }

/-- Witness for C8 with the Docker client missing on an empty ledger. -/
theorem c8_missing_prereq_aborts_witness :
    (RunOpenCode envC8 NewRemediationStore "r1" "svc-a" "repo" "boom" 0 60).runError.isSome = true ∧
    (RunOpenCode envC8 NewRemediationStore "r1" "svc-a" "repo" "boom" 0 60).final.createdContainers = [] ∧
    (RunOpenCode envC8 NewRemediationStore "r1" "svc-a" "repo" "boom" 0 60).final.sandboxStarted = false ∧
    (∃ r, (RunOpenCode envC8 NewRemediationStore "r1" "svc-a" "repo" "boom" 0 60).final.store.Get "r1" = some r ∧
      r.status = RemediationStatus.failed ∧ r.exitCode = some (-1) ∧ r.endTime = some 60 ∧
      (envC8.hasDockerClient = false → r.errorMessage = "Docker client not available") ∧
      (envC8.hasDockerClient = true → envC8.githubPAT = "" →
        r.errorMessage = "GITHUB_PAT not set") ∧
      (envC8.hasDockerClient = true → envC8.githubPAT ≠ "" → envC8.cerebrasKey = "" →
        r.errorMessage = "CEREBRAS_API_KEY not set")) ∧
    (NewRemediationStore.order.length < 100 → ∀ j, j ≠ "r1" →
      (RunOpenCode envC8 NewRemediationStore "r1" "svc-a" "repo" "boom" 0 60).final.store.Get j =
        NewRemediationStore.Get j) :=
  c8_missing_prereq_aborts envC8 NewRemediationStore "r1" "svc-a" "repo" "boom" 0 60
    (by decide) (Or.inl rfl)

theorem complete_after_create_status (s0 : RemediationStore) (rid sn repo el : String)
    (t1 : Nat) (ec : Int) (msg : String) (t2 : Nat)
    (hfresh : rid ∉ s0.order) :
    (((s0.Create rid sn repo el t1).1.Complete rid false ec msg t2).Get rid).map
      RemediationRecord.status = some RemediationStatus.failed := by
  rw [complete_after_create_get s0 rid sn repo el t1 false ec msg t2 hfresh]
  rfl

theorem create_status_pending (s0 : RemediationStore) (rid sn repo el : String) (t1 : Nat)
    (hfresh : rid ∉ s0.order) :
    (((s0.Create rid sn repo el t1).1).Get rid).map RemediationRecord.status =
      some RemediationStatus.pending := by
  rw [create_get_fresh s0 rid sn repo el t1 hfresh]
  rfl

theorem runOpenCode_no_running_when_missing (env : SandboxEnv) (s0 : RemediationStore)
    (rid sn repo el : String) (t1 t2 : Nat)
    (hfresh : rid ∉ s0.order)
    (hpre : env.hasDockerClient = false ∨ env.githubPAT = "" ∨ env.cerebrasKey = "") :
    ∀ st ∈ (RunOpenCode env s0 rid sn repo el t1 t2).trace,
      (st.store.Get rid).map RemediationRecord.status ≠ some RemediationStatus.running := by
  have hgen : ∀ (msg : String),
      ∀ st ∈ [(⟨(s0.Create rid sn repo el t1).1, [], false⟩ : RunState),
              ⟨(s0.Create rid sn repo el t1).1.Complete rid false (-1) msg t2, [], false⟩],
        (st.store.Get rid).map RemediationRecord.status ≠ some RemediationStatus.running := by
    intro msg st hst
    simp only [List.mem_cons, List.not_mem_nil, or_false] at hst
    rcases hst with rfl | rfl
    · rw [show ((⟨(s0.Create rid sn repo el t1).1, [], false⟩ : RunState)).store =
          (s0.Create rid sn repo el t1).1 from rfl,
        create_status_pending s0 rid sn repo el t1 hfresh]
      simp
    · rw [show ((⟨(s0.Create rid sn repo el t1).1.Complete rid false (-1) msg t2, [],
            false⟩ : RunState)).store =
          (s0.Create rid sn repo el t1).1.Complete rid false (-1) msg t2 from rfl,
        complete_after_create_status s0 rid sn repo el t1 (-1) msg t2 hfresh]
      simp
  by_cases h1 : env.hasDockerClient = false
  · have heq : (RunOpenCode env s0 rid sn repo el t1 t2).trace =
        [⟨(s0.Create rid sn repo el t1).1, [], false⟩,
         ⟨(s0.Create rid sn repo el t1).1.Complete rid false (-1)
            "Docker client not available" t2, [], false⟩] := by
      simp only [RunOpenCode]
      rw [if_pos h1]
    rw [heq]
    exact hgen _
  · by_cases h2 : env.githubPAT = ""
    · have heq : (RunOpenCode env s0 rid sn repo el t1 t2).trace =
          [⟨(s0.Create rid sn repo el t1).1, [], false⟩,
           ⟨(s0.Create rid sn repo el t1).1.Complete rid false (-1)
              "GITHUB_PAT not set" t2, [], false⟩] := by
        simp only [RunOpenCode]
        rw [if_neg h1, if_pos h2]
      rw [heq]
      exact hgen _
    · by_cases h3 : env.cerebrasKey = ""
      · have heq : (RunOpenCode env s0 rid sn repo el t1 t2).trace =
            [⟨(s0.Create rid sn repo el t1).1, [], false⟩,
             ⟨(s0.Create rid sn repo el t1).1.Complete rid false (-1)
                "CEREBRAS_API_KEY not set" t2, [], false⟩] := by
          simp only [RunOpenCode]
          rw [if_neg h1, if_neg h2, if_pos h3]
        rw [heq]
        exact hgen _
      · rcases hpre with h | h | h
        · exact absurd h h1
        · exact absurd h h2
        · exact absurd h h3

/-- An environment in which every Docker call succeeds, for the C7
counterexample and witness. -/
def envC7 : SandboxEnv :=
  { hasDockerClient := true, githubPAT := "pat", cerebrasKey := "key", pullOk := true,
    createRes := Except.ok "c1", startErr := none, wait := WaitOutcome.exited 0 }

/-- Claim C7 counterexample: immediately after validation `RunOpenCode`
calls `UpdateStatus(id, running, "", containerName)` (opencode.go:126) —
at that trace point the record's status is already `running` while no
container has been created and the start call has not returned; so the
status does become `running` before the sandbox is confirmed started. -/
theorem c7_running_before_start_counterexample :
    ((RunOpenCode envC7 NewRemediationStore "r1" "svc-a" "repo" "boom" 0 60).trace[1]?).map
        (fun st => ((st.store.Get "r1").map RemediationRecord.status,
                    st.createdContainers, st.sandboxStarted)) =
      some (some RemediationStatus.running, [], false) := by
  rfl

/-- Claim C7 (amended): the claim as stated is false — the record is
marked `running` before the container is created, let alone started (see
the counterexample).  Amended: at every point of every `RunOpenCode`
execution, the record's status is `running` only if prerequisite
validation succeeded (Docker client present and both credentials
non-empty); when a prerequisite is missing the status never becomes
`running`.  The id is the fresh UUID of the attempt. -/
theorem c7_running_only_after_validation (env : SandboxEnv) (s0 : RemediationStore)
    (rid sn repo el : String) (t1 t2 : Nat)
    (hfresh : rid ∉ s0.order)
    (st : RunState) (hst : st ∈ (RunOpenCode env s0 rid sn repo el t1 t2).trace)
    (hrun : (st.store.Get rid).map RemediationRecord.status = some RemediationStatus.running) :
    env.hasDockerClient = true ∧ env.githubPAT ≠ "" ∧ env.cerebrasKey ≠ "" := by
  by_cases h1 : env.hasDockerClient = false
  · exact absurd hrun
      (runOpenCode_no_running_when_missing env s0 rid sn repo el t1 t2 hfresh (Or.inl h1) st hst)
  · by_cases h2 : env.githubPAT = ""
    · exact absurd hrun
        (runOpenCode_no_running_when_missing env s0 rid sn repo el t1 t2 hfresh
          (Or.inr (Or.inl h2)) st hst)
    · by_cases h3 : env.cerebrasKey = ""
      · exact absurd hrun
          (runOpenCode_no_running_when_missing env s0 rid sn repo el t1 t2 hfresh
            (Or.inr (Or.inr h3)) st hst)
      · refine ⟨?_, h2, h3⟩
        cases hdc : env.hasDockerClient with
        | false => exact absurd hdc h1
        | true => rfl

/-- Witness for the amended C7: the trace point at which the concrete
all-prerequisites-present run has status running. -/
theorem c7_running_only_after_validation_witness :
    envC7.hasDockerClient = true ∧ envC7.githubPAT ≠ "" ∧ envC7.cerebrasKey ≠ "" :=
  c7_running_only_after_validation envC7 NewRemediationStore "r1" "svc-a" "repo" "boom" 0 60
    (by decide)
    ((RunOpenCode envC7 NewRemediationStore "r1" "svc-a" "repo" "boom" 0 60).trace.getD 1
      ⟨NewRemediationStore, [], false⟩)
    (by decide) (by decide)

theorem sweepService_not_stale (timeout now : Nat) (svc : Service)
    (h : isStale timeout now svc = false) : sweepService timeout now svc = svc := by
  unfold sweepService
  simp [h]

theorem sweepService_status_down (timeout now : Nat) (svc : Service)
    (h : isStale timeout now svc = true) :
    (sweepService timeout now svc).status = ServiceStatus.down := by
  unfold sweepService
  simp [h, Service.addLog]

theorem isStale_sweepService (timeout now : Nat) (svc : Service) :
    isStale timeout now (sweepService timeout now svc) = false := by
  cases hs : isStale timeout now svc with
  | false => rw [sweepService_not_stale timeout now svc hs]; exact hs
  | true =>
    have hd := sweepService_status_down timeout now svc hs
    unfold isStale
    rw [hd]
    simp

theorem sweepService_idem (timeout now : Nat) (svc : Service) :
    sweepService timeout now (sweepService timeout now svc) = sweepService timeout now svc :=
  sweepService_not_stale timeout now _ (isStale_sweepService timeout now svc)

/-- Claim C5: the sweep is idempotent.  (1) Calling `CheckTimeouts` twice
back-to-back (same clock instant, i.e. no additional time elapsed past
the threshold) yields an empty newly-down set and an unchanged store on
the second call.  (2) A record already in status down is left with all
fields unchanged by a sweep.  (3) On a state with no stale record the
sweep returns an empty newly-down set and mutates nothing, and the
spec-modelled `CheckTimeoutsAndUpdateUptime` entry point additionally
returns both of its result sets empty. -/
theorem c5_sweep_idempotent (s : ServiceStore) (now : Nat) :
    ((s.CheckTimeouts now).1.CheckTimeouts now) = ((s.CheckTimeouts now).1, []) ∧
    (∀ name svc, s.GetService name = some svc → svc.status = ServiceStatus.down →
      (s.CheckTimeouts now).1.GetService name = some svc) ∧
    ((∀ e ∈ s.services, isStale s.timeout now e.2 = false) →
      s.CheckTimeouts now = (s, []) ∧
      s.CheckTimeoutsAndUpdateUptime now = (s, [], [])) := by
  refine ⟨?_, ?_, ?_⟩
  · unfold ServiceStore.CheckTimeouts
    refine Prod.ext ?_ ?_
    · show ({ s with services := _ } : ServiceStore) = { s with services := _ }
      congr 1
      rw [List.map_map]
      refine List.map_congr_left ?_
      intro e _
      show (e.1, sweepService s.timeout now (sweepService s.timeout now e.2)) = _
      rw [sweepService_idem]
    · show ((s.services.map (fun e => (e.1, sweepService s.timeout now e.2))).filter _).map _ = []
      have hfil : (s.services.map (fun e => (e.1, sweepService s.timeout now e.2))).filter
          (fun e => isStale s.timeout now e.2) = [] := by
        refine List.filter_eq_nil_iff.2 ?_
        intro a ha
        rcases List.mem_map.1 ha with ⟨e, _, rfl⟩
        simp [isStale_sweepService]
      rw [hfil]
      rfl
  · intro name svc hget hdown
    unfold ServiceStore.GetService at hget ⊢
    unfold ServiceStore.CheckTimeouts
    show lookupEntry (s.services.map (fun e => (e.1, sweepService s.timeout now e.2))) name = _
    rw [lookupEntry_map_value, hget]
    have hns : isStale s.timeout now svc = false := by
      unfold isStale
      rw [hdown]
      simp
    show some (sweepService s.timeout now svc) = some svc
    rw [sweepService_not_stale s.timeout now svc hns]
  · intro hall
    have hmap : s.services.map (fun e => (e.1, sweepService s.timeout now e.2)) = s.services := by
      have : s.services.map (fun e => (e.1, sweepService s.timeout now e.2)) =
          s.services.map id := by
        refine List.map_congr_left ?_
        intro e he
        show (e.1, sweepService s.timeout now e.2) = e
        rw [sweepService_not_stale s.timeout now e.2 (hall e he)]
      rw [this, List.map_id]
    have hfil : s.services.filter (fun e => isStale s.timeout now e.2) = [] := by
      refine List.filter_eq_nil_iff.2 ?_
      intro a ha
      simp [hall a ha]
    constructor
    · unfold ServiceStore.CheckTimeouts
      rw [hmap, hfil]
      rfl
    · unfold ServiceStore.CheckTimeoutsAndUpdateUptime ServiceStore.CheckTimeouts
      rw [hmap, hfil]
      rfl

/-- A concrete store with one stale healthy service and one already-down
service, for the C5 witness. -/
def storeC5 : ServiceStore :=
  { services :=
      [("svc-a", { svcW with lastHeartbeat := 0 }),
       ("svc-b", { svcW with name := "svc-b", status := ServiceStatus.down })],
    timeout := 30 }

/-- Witness for C5 at a concrete store and clock: the already-down record
is untouched by the sweep. -/
theorem c5_sweep_idempotent_witness :
    (storeC5.CheckTimeouts 100).1.GetService "svc-b" =
      some { svcW with name := "svc-b", status := ServiceStatus.down } :=
  (c5_sweep_idempotent storeC5 100).2.1 "svc-b"
    { svcW with name := "svc-b", status := ServiceStatus.down } (by decide) rfl

/-- Claim C10: `RecordHeartbeat` treats every heartbeat whose status
string is not exactly "healthy" — "error", "down", the empty string, or
any other text — as an error report: the stored service gets status
error (never down, never the given string), successful checks are not
incremented while total checks are, last_error is set to the request's
error text (possibly empty), and an "error" log entry is appended whose
message is the error text, falling back to the structured-event message
when the text is empty. -/
theorem c10_non_healthy_heartbeat (s : ServiceStore) (req : HeartbeatRequest) (now : Nat)
    (h : req.status ≠ "healthy") :
    (s.RecordHeartbeat req now).2.status = ServiceStatus.error ∧
    (s.RecordHeartbeat req now).2.status ≠ ServiceStatus.down ∧
    (s.RecordHeartbeat req now).2.lastError = req.errorLog ∧
    (s.RecordHeartbeat req now).2.successChecks =
      (match s.GetService req.serviceName with
       | some svc => svc.successChecks
       | none => 0) ∧
    (s.RecordHeartbeat req now).2.totalChecks =
      (match s.GetService req.serviceName with
       | some svc => svc.totalChecks
       | none => 0) + 1 ∧
    ((s.RecordHeartbeat req now).2.logs.getLast? = some
      { timestamp := now, type := "error",
        message :=
          match req.logData with
          | some d => if req.errorLog = "" then buildLogMessage d else req.errorLog
          | none => req.errorLog,
        eventType := match req.logData with | some d => d.eventType | none => "",
        details := match req.logData with | some d => d.details | none => [] }) ∧
    (s.RecordHeartbeat req now).1.GetService req.serviceName =
      some (s.RecordHeartbeat req now).2 := by
  unfold ServiceStore.GetService
  cases hb : lookupEntry s.services req.serviceName with
  | some b =>
    simp only [ServiceStore.RecordHeartbeat, hb, if_neg h, Service.addLog, Nat.succ_pos,
      ite_true, if_true]
    refine ⟨?_, ?_, ?_, ?_, ?_, ?_, ?_⟩ <;>
      first
        | trivial
        | exact pushLog_getLast? _ _
        | rw [lookupEntry_upsertEntry_self]
  | none =>
    simp only [ServiceStore.RecordHeartbeat, hb, if_neg h, Service.addLog, Nat.succ_pos,
      ite_true, if_true]
    refine ⟨?_, ?_, ?_, ?_, ?_, ?_, ?_⟩ <;>
      first
        | trivial
        | exact pushLog_getLast? _ _
        | rw [lookupEntry_upsertEntry_self]

/-- A concrete non-healthy heartbeat ("down" is not "healthy") for the
C10 witness. -/
def reqC10 : HeartbeatRequest :=
  { serviceName := "svc-a", githubRepo := "", status := "down", errorLog := "boom",
    logData := none }

/-- Witness for C10: a "down" heartbeat on an empty registry yields
status error, not down. -/
theorem c10_non_healthy_heartbeat_witness :
    ((NewServiceStore 30).RecordHeartbeat reqC10 5).2.status = ServiceStatus.error ∧
    ((NewServiceStore 30).RecordHeartbeat reqC10 5).2.status ≠ ServiceStatus.down ∧
    ((NewServiceStore 30).RecordHeartbeat reqC10 5).2.lastError = reqC10.errorLog ∧
    ((NewServiceStore 30).RecordHeartbeat reqC10 5).2.successChecks =
      (match (NewServiceStore 30).GetService reqC10.serviceName with
       | some svc => svc.successChecks
       | none => 0) ∧
    ((NewServiceStore 30).RecordHeartbeat reqC10 5).2.totalChecks =
      (match (NewServiceStore 30).GetService reqC10.serviceName with
       | some svc => svc.totalChecks
       | none => 0) + 1 ∧
    (((NewServiceStore 30).RecordHeartbeat reqC10 5).2.logs.getLast? = some
      { timestamp := 5, type := "error",
        message :=
          match reqC10.logData with
          | some d => if reqC10.errorLog = "" then buildLogMessage d else reqC10.errorLog
          | none => reqC10.errorLog,
        eventType := match reqC10.logData with | some d => d.eventType | none => "",
        details := match reqC10.logData with | some d => d.details | none => [] }) ∧
    ((NewServiceStore 30).RecordHeartbeat reqC10 5).1.GetService reqC10.serviceName =
      some ((NewServiceStore 30).RecordHeartbeat reqC10 5).2 :=
  c10_non_healthy_heartbeat (NewServiceStore 30) reqC10 5 (by decide)

/-- One call into the `ServiceStore` API: a heartbeat or a sweep tick
(the operations claim C1 quantifies over). -/
inductive StoreOp
  | heartbeat (req : HeartbeatRequest) (now : Nat)
  | sweep (now : Nat)

/-- Apply one registry operation. -/
def applyStoreOp (s : ServiceStore) : StoreOp → ServiceStore
  | StoreOp.heartbeat req now => (s.RecordHeartbeat req now).1
  | StoreOp.sweep now => (s.CheckTimeouts now).1

/-- Apply a sequence of registry operations left to right. -/
def applyStoreOps (s : ServiceStore) (ops : List StoreOp) : ServiceStore :=
  ops.foldl applyStoreOp s

/-- Apply a sequence of heartbeats (request paired with its clock). -/
def applyHeartbeats (s : ServiceStore) (hbs : List (HeartbeatRequest × Nat)) : ServiceStore :=
  hbs.foldl (fun st p => (st.RecordHeartbeat p.1 p.2).1) s

/-- The number of heartbeats in the sequence whose status is exactly
"healthy". -/
def countHealthy (hbs : List (HeartbeatRequest × Nat)) : Nat :=
  hbs.countP (fun p => p.1.status == "healthy")

/-- The uptime bookkeeping invariant of a service record. -/
def uptimeInv (svc : Service) : Prop :=
  svc.successChecks ≤ svc.totalChecks ∧
  (0 < svc.totalChecks →
    svc.uptimePercent = (svc.successChecks : Rat) / (svc.totalChecks : Rat) * 100)

theorem recordHeartbeat_fields (s : ServiceStore) (req : HeartbeatRequest) (now : Nat) :
    (s.RecordHeartbeat req now).2.totalChecks =
      (match lookupEntry s.services req.serviceName with
       | some b => b.totalChecks
       | none => 0) + 1 ∧
    (s.RecordHeartbeat req now).2.successChecks =
      (match lookupEntry s.services req.serviceName with
       | some b => b.successChecks
       | none => 0) + (if req.status = "healthy" then 1 else 0) ∧
    (s.RecordHeartbeat req now).2.uptimePercent =
      ((s.RecordHeartbeat req now).2.successChecks : Rat) /
        ((s.RecordHeartbeat req now).2.totalChecks : Rat) * 100 ∧
    (s.RecordHeartbeat req now).1.services =
      upsertEntry s.services req.serviceName (s.RecordHeartbeat req now).2 := by
  cases hb : lookupEntry s.services req.serviceName with
  | some b =>
    by_cases hh : req.status = "healthy" <;>
      simp [ServiceStore.RecordHeartbeat, hb, hh, Service.addLog, Nat.succ_pos]
  | none =>
    by_cases hh : req.status = "healthy" <;>
      simp [ServiceStore.RecordHeartbeat, hb, hh, Service.addLog, Nat.succ_pos]

theorem recordHeartbeat_inv (s : ServiceStore) (req : HeartbeatRequest) (now : Nat)
    (h : ∀ e ∈ s.services, uptimeInv e.2) :
    ∀ e ∈ (s.RecordHeartbeat req now).1.services, uptimeInv e.2 := by
  obtain ⟨ht, hsc, hu, hsrv⟩ := recordHeartbeat_fields s req now
  intro e he
  rw [hsrv] at he
  rcases mem_upsertEntry he with h' | h'
  · exact h e h'
  · rw [h']
    refine ⟨?_, fun _ => hu⟩
    rw [ht, hsc]
    have hbase : (match lookupEntry s.services req.serviceName with
        | some b => b.successChecks
        | none => 0) ≤
        (match lookupEntry s.services req.serviceName with
        | some b => b.totalChecks
        | none => 0) := by
      cases hb : lookupEntry s.services req.serviceName with
      | some b => exact (h (req.serviceName, b) (lookupEntry_mem hb)).1
      | none => exact Nat.le_refl 0
    by_cases hh : req.status = "healthy" <;> simp [hh] <;> omega

theorem sweepService_fields (timeout now : Nat) (svc : Service)
    (h : isStale timeout now svc = true) :
    (sweepService timeout now svc).totalChecks = svc.totalChecks + 1 ∧
    (sweepService timeout now svc).successChecks = svc.successChecks ∧
    (sweepService timeout now svc).uptimePercent =
      (svc.successChecks : Rat) / ((svc.totalChecks : Nat) + 1 : Rat) * 100 := by
  simp [sweepService, h, Service.addLog, Nat.succ_pos]

theorem sweepService_inv (timeout now : Nat) (svc : Service) (h : uptimeInv svc) :
    uptimeInv (sweepService timeout now svc) := by
  cases hs : isStale timeout now svc with
  | false => rw [sweepService_not_stale timeout now svc hs]; exact h
  | true =>
    obtain ⟨ht, hsc, hu⟩ := sweepService_fields timeout now svc hs
    refine ⟨?_, fun _ => ?_⟩
    · rw [ht, hsc]
      exact Nat.le_succ_of_le h.1
    · rw [ht, hsc, hu]
      norm_num

theorem checkTimeouts_inv (s : ServiceStore) (now : Nat)
    (h : ∀ e ∈ s.services, uptimeInv e.2) :
    ∀ e ∈ (s.CheckTimeouts now).1.services, uptimeInv e.2 := by
  intro e he
  unfold ServiceStore.CheckTimeouts at he
  rcases List.mem_map.1 he with ⟨e0, he0, rfl⟩
  exact sweepService_inv s.timeout now e0.2 (h e0 he0)

theorem applyStoreOps_inv :
    ∀ (ops : List StoreOp) (s : ServiceStore),
      (∀ e ∈ s.services, uptimeInv e.2) →
      ∀ e ∈ (applyStoreOps s ops).services, uptimeInv e.2 := by
  intro ops
  induction ops with
  | nil => intro s h; exact h
  | cons op ops ih =>
    intro s h
    refine ih (applyStoreOp s op) ?_
    cases op with
    | heartbeat req now => exact recordHeartbeat_inv s req now h
    | sweep now => exact checkTimeouts_inv s now h

theorem applyHeartbeats_counts :
    ∀ (hbs : List (HeartbeatRequest × Nat)) (s : ServiceStore) (name : String),
      (∀ p ∈ hbs, p.1.serviceName = name) →
      ∀ b, lookupEntry s.services name = some b →
      ∃ svc, lookupEntry (applyHeartbeats s hbs).services name = some svc ∧
        svc.totalChecks = b.totalChecks + hbs.length ∧
        svc.successChecks = b.successChecks + countHealthy hbs := by
  intro hbs
  induction hbs with
  | nil =>
    intro s name hall b hb
    exact ⟨b, hb, by simp [countHealthy]⟩
  | cons p rest ih =>
    intro s name hall b hb
    have hpname : p.1.serviceName = name := hall p (List.mem_cons_self _ _)
    obtain ⟨ht, hsc, hu, hsrv⟩ := recordHeartbeat_fields s p.1 p.2
    rw [hpname, hb] at ht hsc
    simp only [] at ht hsc
    have hstep : lookupEntry ((s.RecordHeartbeat p.1 p.2).1).services name =
        some (s.RecordHeartbeat p.1 p.2).2 := by
      rw [hsrv, hpname, lookupEntry_upsertEntry_self]
    have hrest : ∀ q ∈ rest, q.1.serviceName = name :=
      fun q hq => hall q (List.mem_cons_of_mem _ hq)
    obtain ⟨svc, hsvc, hsvct, hsvcs⟩ :=
      ih ((s.RecordHeartbeat p.1 p.2).1) name hrest (s.RecordHeartbeat p.1 p.2).2 hstep
    refine ⟨svc, hsvc, ?_, ?_⟩
    · rw [hsvct, ht]
      simp only [List.length_cons]
      omega
    · rw [hsvcs, hsc]
      by_cases hh : p.1.status = "healthy" <;>
        simp [countHealthy, List.countP_cons, hh] <;> omega

theorem applyHeartbeats_eq_ops :
    ∀ (hbs : List (HeartbeatRequest × Nat)) (s : ServiceStore),
      applyHeartbeats s hbs =
        applyStoreOps s (hbs.map (fun p => StoreOp.heartbeat p.1 p.2))
  | [], s => rfl
  | p :: rest, s => applyHeartbeats_eq_ops rest ((s.RecordHeartbeat p.1 p.2).1)

/-- Claim C1: (1) after every sequence of heartbeats and sweep ticks from
a fresh registry, every service record satisfies
`uptimePercent = successChecks/totalChecks*100` (over ℚ, the exact value
the float64 code computes) and `successChecks ≤ totalChecks`; (2) each
sweep-induced down transition increments total checks but not successful
checks; (3) after N heartbeats to one service, k of them with status
"healthy" and no sweep, the service has totalChecks = N,
successChecks = k and uptimePercent = k/N*100. -/
theorem c1_uptime_accounting :
    (∀ (timeout : Nat) (ops : List StoreOp),
      ∀ e ∈ (applyStoreOps (NewServiceStore timeout) ops).services, uptimeInv e.2) ∧
    (∀ (timeout now : Nat) (svc : Service), isStale timeout now svc = true →
      (sweepService timeout now svc).totalChecks = svc.totalChecks + 1 ∧
      (sweepService timeout now svc).successChecks = svc.successChecks) ∧
    (∀ (timeout : Nat) (hbs : List (HeartbeatRequest × Nat)) (name : String),
      hbs ≠ [] → (∀ p ∈ hbs, p.1.serviceName = name) →
      ∃ svc, (applyHeartbeats (NewServiceStore timeout) hbs).GetService name = some svc ∧
        svc.totalChecks = hbs.length ∧
        svc.successChecks = countHealthy hbs ∧
        svc.uptimePercent = (countHealthy hbs : Rat) / (hbs.length : Rat) * 100) := by
  refine ⟨?_, ?_, ?_⟩
  · intro timeout ops
    refine applyStoreOps_inv ops (NewServiceStore timeout) ?_
    intro e he
    exact absurd he (List.not_mem_nil e)
  · intro timeout now svc h
    obtain ⟨h1, h2, _⟩ := sweepService_fields timeout now svc h
    exact ⟨h1, h2⟩
  · intro timeout hbs name hne hall
    cases hbs with
    | nil => exact absurd rfl hne
    | cons p rest =>
      have hpname : p.1.serviceName = name := hall p (List.mem_cons_self _ _)
      obtain ⟨ht, hsc, hu, hsrv⟩ := recordHeartbeat_fields (NewServiceStore timeout) p.1 p.2
      have hb0 : lookupEntry (NewServiceStore timeout).services p.1.serviceName = none := rfl
      rw [hb0] at ht hsc
      simp only [] at ht hsc
      have hstep : lookupEntry
          (((NewServiceStore timeout).RecordHeartbeat p.1 p.2).1).services name =
          some ((NewServiceStore timeout).RecordHeartbeat p.1 p.2).2 := by
        rw [hsrv, hpname, lookupEntry_upsertEntry_self]
      have hrest : ∀ q ∈ rest, q.1.serviceName = name :=
        fun q hq => hall q (List.mem_cons_of_mem _ hq)
      obtain ⟨svc, hsvc, hsvct, hsvcs⟩ :=
        applyHeartbeats_counts rest (((NewServiceStore timeout).RecordHeartbeat p.1 p.2).1)
          name hrest ((NewServiceStore timeout).RecordHeartbeat p.1 p.2).2 hstep
    -- the final record and its counts
      have htotal : svc.totalChecks = (p :: rest).length := by
        rw [hsvct, ht]
        simp only [List.length_cons]
        omega
      have hsucc : svc.successChecks = countHealthy (p :: rest) := by
        rw [hsvcs, hsc]
        by_cases hh : p.1.status = "healthy" <;>
          simp [countHealthy, List.countP_cons, hh] <;> omega
      have hfin : lookupEntry (applyHeartbeats (NewServiceStore timeout) (p :: rest)).services
          name = some svc := hsvc
      have hinv : uptimeInv svc := by
        have hmem := lookupEntry_mem
          (l := (applyHeartbeats (NewServiceStore timeout) (p :: rest)).services)
          (k := name) (v := svc) hfin
        have := applyStoreOps_inv ((p :: rest).map (fun q => StoreOp.heartbeat q.1 q.2))
          (NewServiceStore timeout) (by intro e he; exact absurd he (List.not_mem_nil e))
        rw [applyHeartbeats_eq_ops] at hmem
        exact this (name, svc) hmem
      refine ⟨svc, hfin, htotal, hsucc, ?_⟩
      have hpos : 0 < svc.totalChecks := by
        rw [htotal]
        simp
      rw [hinv.2 hpos, htotal, hsucc]

/-- A concrete heartbeat sequence (one healthy, one error) to one
service, for the C1 witness. -/
def hbsC1 : List (HeartbeatRequest × Nat) :=
  [({ serviceName := "svc-a", githubRepo := "r", status := "healthy", errorLog := "",
      logData := none }, 1),
   ({ serviceName := "svc-a", githubRepo := "r", status := "error", errorLog := "boom",
      logData := none }, 2)]

/-- Witness for C1: a concrete stale service for the sweep-counting part
and a concrete two-heartbeat sequence for the k/N part. -/
theorem c1_uptime_accounting_witness :
    ((sweepService 30 100 { svcW with lastHeartbeat := 0 }).totalChecks =
        ({ svcW with lastHeartbeat := 0 } : Service).totalChecks + 1 ∧
      (sweepService 30 100 { svcW with lastHeartbeat := 0 }).successChecks =
        ({ svcW with lastHeartbeat := 0 } : Service).successChecks) ∧
    (∃ svc, (applyHeartbeats (NewServiceStore 30) hbsC1).GetService "svc-a" = some svc ∧
      svc.totalChecks = hbsC1.length ∧
      svc.successChecks = countHealthy hbsC1 ∧
      svc.uptimePercent = (countHealthy hbsC1 : Rat) / (hbsC1.length : Rat) * 100) :=
  ⟨c1_uptime_accounting.2.1 30 100 { svcW with lastHeartbeat := 0 } (by decide),
   c1_uptime_accounting.2.2 30 hbsC1 "svc-a" (by decide) (by decide)⟩


/-- The arguments of one `Create` call. -/
structure CreateArgs where
  id : String
  serviceName : String
  githubRepo : String
  errorLog : String
  now : Nat
deriving DecidableEq, Repr

/-- Apply a sequence of `Create` calls left to right. -/
def applyCreates (s : RemediationStore) (args : List CreateArgs) : RemediationStore :=
  args.foldl (fun st a => (st.Create a.id a.serviceName a.githubRepo a.errorLog a.now).1) s

/-- Well-formedness of a ledger reachable by distinct-id creates: record
keys and the order list are duplicate-free, a key is present in the map
exactly when it is in the order list, and every stored record carries
its own key as id. -/
def ledgerInv (s : RemediationStore) : Prop :=
  (s.records.map Prod.fst).Nodup ∧
  s.order.Nodup ∧
  (∀ j, (lookupEntry s.records j).isSome = true ↔ j ∈ s.order) ∧
  (∀ j r, lookupEntry s.records j = some r → r.id = j)

theorem create_step (s : RemediationStore) (id sn repo el : String) (now : Nat)
    (hinv : ledgerInv s) (hlen : s.order.length ≤ 100) (hfresh : id ∉ s.order) :
    ledgerInv (s.Create id sn repo el now).1 ∧
    (s.Create id sn repo el now).1.order =
      (s.order ++ [id]).drop ((s.order ++ [id]).length - 100) := by
  obtain ⟨hkeys, hord, hiff, hid⟩ := hinv
  simp only [RemediationStore.Create]
  by_cases hc : 100 < (s.order ++ [id]).length
  · rw [if_pos hc]
    have hlen100 : s.order.length = 100 := by
      simp only [List.length_append, List.length_cons, List.length_nil] at hc
      omega
    cases ho : s.order with
    | nil => rw [ho] at hlen100; simp at hlen100
    | cons h0 tl =>
      have hh0mem : h0 ∈ s.order := by rw [ho]; exact List.mem_cons_self _ _
      have hh0id : h0 ≠ id := fun hh => hfresh (hh ▸ hh0mem)
      have hidh0 : id ≠ h0 := fun hh => hh0id hh.symm
      have htlnod : tl.Nodup := (List.nodup_cons.1 (ho ▸ hord)).2
      have hh0tl : h0 ∉ tl := (List.nodup_cons.1 (ho ▸ hord)).1
      have hidtl : id ∉ tl := fun hh => hfresh (by rw [ho]; exact List.mem_cons_of_mem _ hh)
      have htllen : tl.length = 99 := by
        rw [ho] at hlen100
        simp only [List.length_cons] at hlen100
        omega
      simp only [List.cons_append, List.headD_cons, List.tail_cons]
      constructor
      · refine ⟨keys_nodup_eraseEntry _ (keys_nodup_upsertEntry _ _ hkeys), ?_, ?_, ?_⟩
        · rw [List.nodup_append]
          exact ⟨htlnod, List.nodup_singleton _,
            fun a ha hb => ((List.mem_singleton.1 hb) ▸ hidtl) ha⟩
        · intro j
          by_cases hj : j = id
          · subst hj
            rw [lookupEntry_eraseEntry_ne _ _ hidh0, lookupEntry_upsertEntry_self]
            simp
          · by_cases hj0 : j = h0
            · subst hj0
              rw [lookupEntry_eraseEntry_self (keys_nodup_upsertEntry _ _ hkeys)]
              simp only [Option.isSome_none, Bool.false_eq_true, false_iff]
              intro hmem
              rcases List.mem_append.1 hmem with hm | hm
              · exact hh0tl hm
              · exact hh0id (List.mem_singleton.1 hm)
            · rw [lookupEntry_eraseEntry_ne _ _ hj0, lookupEntry_upsertEntry_ne _ _ _ hj]
              have hj' := hiff j
              rw [ho] at hj'
              constructor
              · intro hs
                rcases List.mem_cons.1 (hj'.1 hs) with hm | hm
                · exact absurd hm hj0
                · exact List.mem_append.2 (Or.inl hm)
              · intro hmem
                rcases List.mem_append.1 hmem with hm | hm
                · exact hj'.2 (List.mem_cons_of_mem _ hm)
                · exact absurd (List.mem_singleton.1 hm) hj
        · intro j r hr
          by_cases hj : j = id
          · subst hj
            rw [lookupEntry_eraseEntry_ne _ _ hidh0, lookupEntry_upsertEntry_self] at hr
            rw [← Option.some.inj hr]
          · by_cases hj0 : j = h0
            · subst hj0
              rw [lookupEntry_eraseEntry_self (keys_nodup_upsertEntry _ _ hkeys)] at hr
              exact absurd hr (by simp)
            · rw [lookupEntry_eraseEntry_ne _ _ hj0,
                lookupEntry_upsertEntry_ne _ _ _ hj] at hr
              exact hid j r hr
      · have hd : (h0 :: (tl ++ [id])).length - 100 = 1 := by
          simp only [List.length_cons, List.length_append, List.length_nil, htllen]
        rw [hd]
        simp
  · rw [if_neg hc]
    have hd : (s.order ++ [id]).length - 100 = 0 := by
      simp only [List.length_append, List.length_cons, List.length_nil] at hc ⊢
      omega
    constructor
    · refine ⟨keys_nodup_upsertEntry _ _ hkeys, ?_, ?_, ?_⟩
      · rw [List.nodup_append]
        exact ⟨hord, List.nodup_singleton _,
          fun a ha hb => ((List.mem_singleton.1 hb) ▸ hfresh) ha⟩
      · intro j
        by_cases hj : j = id
        · subst hj
          rw [lookupEntry_upsertEntry_self]
          simp
        · rw [lookupEntry_upsertEntry_ne _ _ _ hj]
          rw [hiff j]
          constructor
          · intro hm
            exact List.mem_append.2 (Or.inl hm)
          · intro hmem
            rcases List.mem_append.1 hmem with hm | hm
            · exact hm
            · exact absurd (List.mem_singleton.1 hm) hj
      · intro j r hr
        by_cases hj : j = id
        · subst hj
          rw [lookupEntry_upsertEntry_self] at hr
          rw [← Option.some.inj hr]
        · rw [lookupEntry_upsertEntry_ne _ _ _ hj] at hr
          exact hid j r hr
    · rw [hd, List.drop_zero]

theorem applyCreates_spec :
    ∀ (args : List CreateArgs) (s : RemediationStore),
      ledgerInv s → s.order.length ≤ 100 →
      (args.map CreateArgs.id).Nodup →
      (∀ a ∈ args, a.id ∉ s.order) →
      ledgerInv (applyCreates s args) ∧
      (applyCreates s args).order =
        (s.order ++ args.map CreateArgs.id).drop
          ((s.order ++ args.map CreateArgs.id).length - 100) := by
  intro args
  induction args with
  | nil =>
    intro s hinv hlen _ _
    refine ⟨hinv, ?_⟩
    simp [applyCreates, Nat.sub_eq_zero_of_le hlen]
  | cons a rest ih =>
    intro s hinv hlen hnod hfr
    have hfa : a.id ∉ s.order := hfr a (List.mem_cons_self _ _)
    obtain ⟨hinv1, hord1⟩ :=
      create_step s a.id a.serviceName a.githubRepo a.errorLog a.now hinv hlen hfa
    have hlen1 : (s.Create a.id a.serviceName a.githubRepo a.errorLog a.now).1.order.length
        ≤ 100 := by
      rw [hord1, List.length_drop]
      simp only [List.length_append, List.length_cons, List.length_nil]
      omega
    have hnod1 : (rest.map CreateArgs.id).Nodup := (List.nodup_cons.1 hnod).2
    have hanotin : a.id ∉ rest.map CreateArgs.id := (List.nodup_cons.1 hnod).1
    have hfr1 : ∀ b ∈ rest,
        b.id ∉ (s.Create a.id a.serviceName a.githubRepo a.errorLog a.now).1.order := by
      intro b hb hmem
      rw [hord1] at hmem
      have hmem' := List.mem_of_mem_drop hmem
      rcases List.mem_append.1 hmem' with hm | hm
      · exact hfr b (List.mem_cons_of_mem _ hb) hm
      · have hba : b.id = a.id := List.mem_singleton.1 hm
        exact hanotin (hba ▸ List.mem_map_of_mem CreateArgs.id hb)
    obtain ⟨hinv2, hord2⟩ :=
      ih (s.Create a.id a.serviceName a.githubRepo a.errorLog a.now).1 hinv1 hlen1 hnod1 hfr1
    refine ⟨hinv2, ?_⟩
    rw [show applyCreates s (a :: rest)
        = applyCreates (s.Create a.id a.serviceName a.githubRepo a.errorLog a.now).1 rest
        from rfl, hord2, hord1]
    have hd : (s.order ++ [a.id]).length - 100 ≤ (s.order ++ [a.id]).length := Nat.sub_le _ _
    rw [← List.drop_append_of_le_length hd, List.drop_drop]
    have hassoc : s.order ++ [a.id] ++ rest.map CreateArgs.id
        = s.order ++ (a :: rest).map CreateArgs.id := by simp
    rw [hassoc]
    have hamount : ((s.order ++ [a.id]).length - 100) +
        (((s.order ++ (a :: rest).map CreateArgs.id).drop
            ((s.order ++ [a.id]).length - 100)).length - 100)
        = (s.order ++ (a :: rest).map CreateArgs.id).length - 100 := by
      simp only [List.length_drop, List.length_append, List.length_cons, List.length_nil,
        List.length_map]
      omega
    rw [hamount]

theorem getAll_of_inv (s : RemediationStore) (hinv : ledgerInv s) :
    s.GetAll.map RemediationRecord.id = s.order.reverse ∧
    s.GetAll.length = s.order.length := by
  obtain ⟨_, _, hiff, hid⟩ := hinv
  have hmain : ∀ l : List String, (∀ j ∈ l, j ∈ s.order) →
      ((l.filterMap (fun i => lookupEntry s.records i)).map RemediationRecord.id = l ∧
       (l.filterMap (fun i => lookupEntry s.records i)).length = l.length) := by
    intro l
    induction l with
    | nil => intro _; simp
    | cons j l ihl =>
      intro h
      have hjmem := h j (List.mem_cons_self _ _)
      have hsome : (lookupEntry s.records j).isSome = true := (hiff j).2 hjmem
      obtain ⟨r, hr⟩ := Option.isSome_iff_exists.1 hsome
      have hidr : r.id = j := hid j r hr
      have hrest := ihl (fun q hq => h q (List.mem_cons_of_mem _ hq))
      simp [List.filterMap_cons, hr, hidr, hrest.1, hrest.2]
  have h1 := hmain s.order.reverse (fun j hj => List.mem_reverse.1 hj)
  unfold RemediationStore.GetAll
  exact ⟨h1.1, by rw [h1.2, List.length_reverse]⟩

/-- Claim C4: after N `Create` calls with distinct ids on a fresh store,
`GetAll` returns min(N, 100) records in newest-first (reverse insertion)
order; when N = 101 the returned list has exactly 100 records and the
very first created id is absent from both `GetAll` and `Get`. -/
theorem c4_getAll_bounded_newest_first (args : List CreateArgs)
    (hnodup : (args.map CreateArgs.id).Nodup) :
    ((applyCreates NewRemediationStore args).GetAll.map RemediationRecord.id =
      ((args.map CreateArgs.id).drop (args.length - 100)).reverse) ∧
    (applyCreates NewRemediationStore args).GetAll.length = min args.length 100 ∧
    (args.length = 101 →
      ∀ a0, args.head? = some a0 →
        (applyCreates NewRemediationStore args).Get a0.id = none ∧
        a0.id ∉ (applyCreates NewRemediationStore args).GetAll.map RemediationRecord.id) := by
  have hinv0 : ledgerInv NewRemediationStore := by
    refine ⟨by simp [NewRemediationStore], by simp [NewRemediationStore], ?_, ?_⟩
    · intro j
      simp [NewRemediationStore, lookupEntry]
    · intro j r hr
      simp [NewRemediationStore, lookupEntry] at hr
  obtain ⟨hinv, hord⟩ := applyCreates_spec args NewRemediationStore hinv0
    (by simp [NewRemediationStore]) hnodup (by intro a _; simp [NewRemediationStore])
  have hord' : (applyCreates NewRemediationStore args).order =
      (args.map CreateArgs.id).drop (args.length - 100) := by
    simpa [NewRemediationStore, List.length_map] using hord
  obtain ⟨hga, hgl⟩ := getAll_of_inv _ hinv
  refine ⟨?_, ?_, ?_⟩
  · rw [hga, hord']
  · rw [hgl, hord', List.length_drop, List.length_map]
    omega
  · intro h101 a0 ha0
    have hnotin : a0.id ∉ (applyCreates NewRemediationStore args).order := by
      rw [hord']
      cases hargs : args with
      | nil => rw [hargs] at ha0; simp at ha0
      | cons x xs =>
        have hx : x = a0 := by
          rw [hargs] at ha0
          exact Option.some.inj (by simpa using ha0)
        subst hx
        rw [hargs] at h101 hnodup
        simp only [List.length_cons] at h101
        have hxs : xs.length = 100 := by omega
        simp only [List.map_cons, List.length_cons, hxs]
        have hd1 : (100 : Nat) + 1 - 100 = 1 := by omega
        rw [hd1]
        simp only [List.drop_succ_cons, List.drop_zero]
        rw [List.map_cons] at hnodup
        exact (List.nodup_cons.1 hnodup).1
    constructor
    · cases hlk : (applyCreates NewRemediationStore args).Get a0.id with
      | none => rfl
      | some r =>
        exfalso
        have hsome : (lookupEntry (applyCreates NewRemediationStore args).records a0.id).isSome
            = true := by
          unfold RemediationStore.Get at hlk
          rw [hlk]
          rfl
        exact hnotin ((hinv.2.2.1 a0.id).1 hsome)
    · rw [hga]
      intro hmem
      exact hnotin (List.mem_reverse.1 hmem)

/-- Three distinct-id create calls for the C4 witness. -/
def argsC4 : List CreateArgs :=
  [{ id := "a", serviceName := "s1", githubRepo := "r1", errorLog := "e1", now := 0 },
   { id := "b", serviceName := "s2", githubRepo := "r2", errorLog := "e2", now := 1 },
   { id := "c", serviceName := "s3", githubRepo := "r3", errorLog := "e3", now := 2 }]

/-- Witness for C4 at three concrete distinct-id creates. -/
theorem c4_getAll_bounded_newest_first_witness :
    ((applyCreates NewRemediationStore argsC4).GetAll.map RemediationRecord.id =
      ((argsC4.map CreateArgs.id).drop (argsC4.length - 100)).reverse) ∧
    (applyCreates NewRemediationStore argsC4).GetAll.length = min argsC4.length 100 ∧
    (argsC4.length = 101 →
      ∀ a0, argsC4.head? = some a0 →
        (applyCreates NewRemediationStore argsC4).Get a0.id = none ∧
        a0.id ∉ (applyCreates NewRemediationStore argsC4).GetAll.map RemediationRecord.id) :=
  c4_getAll_bounded_newest_first argsC4 (by decide)
